/-
Shallow embedding of larq's `optimizers.py` (`CaseOptimizer` and `Bop`) and
verification of the specification claims about it.

The embedding mirrors the Python source:
  * `Variable`            — a named, mutable, gradient-bearing value (external).
  * `alistLookup`/`alistInsert`
                          — Python `dict` semantics on association lists
                            (assignment overwrites the value of an existing key,
                            otherwise appends a new entry).
  * `CaseOptimizer`       — `predicate_optimizer_pairs`, optional
                            `default_optimizer`, cached `var_opt_mapping`, the
                            derived `optimizers` list, and the instance name.
  * `caseInit`            — `CaseOptimizer.__init__` with its run-time type
                            checks over dynamically typed arguments.
  * `computeVarOptMapping` — `CaseOptimizer._compute_var_opt_mapping`, including
                            the in-place dict mutations that survive a raised
                            `ValueError` and the warning for unclaimed variables.
  * `applyGradients`      — `CaseOptimizer.apply_gradients`: the lazy one-time
                            table build, the per-optimizer partition of
                            `grads_and_vars`, and the `zip` with `self.optimizers`
                            that dispatches one bucket per delegate.
  * `CaseOptimizer.getConfig` / `fromConfig`
                          — the serialization round trip.
  * `bopApplyDense`       — `Bop._resource_apply_dense` over exact rationals.
-/
import Mathlib

namespace Larq

/-- A trainable variable: a stable name and its current (scalar) value. -/
structure Variable where
  name : String
  value : Rat
deriving DecidableEq, Repr

/-- A gradient value. -/
abbrev Grad := Rat

/-- One `(gradient, variable)` pair as consumed by `apply_gradients`. -/
abbrev GV := Grad × Variable

/-- A predicate over variables, as supplied to `CaseOptimizer`. -/
abbrev Pred := Variable → Bool

/-- The flat configuration mapping returned by a delegate optimizer's
`get_config` (the `"name"` entry plus its hyperparameters). -/
structure OptConfig where
  name : String
  params : List (String × Rat)
deriving DecidableEq, Repr

/-- An external keras optimizer, observed through its configuration export
(the only capability of delegates that `get_config`/`from_config` use). -/
structure Opt where
  config : OptConfig
deriving DecidableEq, Repr

/-- The delegate optimizer's `get_config`. -/
def Opt.getConfig (o : Opt) : OptConfig := o.config

/-- A `{class_name, config}` pair as produced by `CaseOptimizer.get_config`. -/
structure TaggedConfig where
  className : String
  config : OptConfig
deriving DecidableEq, Repr

/-- External keras contract (`tf.keras.optimizers.deserialize`): the
configuration-import operation reconstructs an optimizer whose configuration
export equals the given configuration. -/
def kerasDeserialize (t : TaggedConfig) : Opt := ⟨t.config⟩

/-- Lookup in an association list, mirroring Python `dict` indexing
(`d[k]`) and membership (`k in d`, via `Option.isSome`). -/
def alistLookup {α : Type} : List (String × α) → String → Option α
  | [], _ => none
  | p :: rest, k => if p.1 = k then some p.2 else alistLookup rest k

/-- Assignment `d[k] = x` on an association list with Python `dict`
semantics: overwrite the entry if the key is present, else append it. -/
def alistInsert {α : Type} (d : List (String × α)) (k : String) (x : α) :
    List (String × α) :=
  if (alistLookup d k).isSome then
    d.map (fun p => if p.1 = k then (k, x) else p)
  else d ++ [(k, x)]

/-- The routing table `var_opt_mapping`: variable name to optimizer index. -/
abbrev Dict := List (String × Nat)

/-- The error raised by `_compute_var_opt_mapping` when a variable is claimed
by more than one predicate (`ValueError` carrying the variable). -/
inductive CaseError where
  | claimConflict (varName : String)
deriving DecidableEq, Repr

/-- The warning text emitted for a variable claimed by no predicate when no
default optimizer is present. -/
def unclaimedWarning (varName : String) : String :=
  "No default_optimizer provided to train variable " ++ varName

/-- The state of a `CaseOptimizer` instance. -/
structure CaseOptimizer where
  predOptPairs : List (Pred × Opt)
  default : Option Opt
  varOptMapping : Option Dict
  optimizers : List Opt
  name : String

/-- The successful result of `CaseOptimizer.__init__`: stores the pairs and
default, leaves `var_opt_mapping` unset, and builds `self.optimizers` as the
explicit optimizers followed by the default (when present). -/
def mkCase (pairs : List (Pred × Opt)) (dflt : Option Opt) (nm : String) :
    CaseOptimizer :=
  ⟨pairs, dflt, none,
    pairs.map (fun p => p.2) ++ (match dflt with | some d => [d] | none => []),
    nm⟩

/-- A dynamically typed Python value handed to the `CaseOptimizer`
constructor: a callable, a keras optimizer, or something else. -/
inductive PyValue where
  | func (f : Pred)
  | optimizer (o : Opt)
  | prim (typeName : String)

/-- Whether a Python value is callable. -/
def PyValue.isCallable : PyValue → Bool
  | func _ => true
  | _ => false

/-- Whether a Python value is a `tf.keras.optimizers.Optimizer`. -/
def PyValue.isOptimizer : PyValue → Bool
  | optimizer _ => true
  | _ => false

/-- The `TypeError`s raised by `CaseOptimizer.__init__`, each recording the
position of the offending argument as the message does. -/
inductive InitError where
  | predNotCallable (i : Nat)
  | optNotOptimizer (i : Nat)
  | defaultNotOptimizer
deriving DecidableEq, Repr

/-- The constructor's loop over `predicate_optimizer_pairs`: check that the
predicate at each position is callable and the optimizer is an optimizer,
raising on the first offending entry. -/
def checkPairsAux : List (PyValue × PyValue) → Nat →
    Except InitError (List (Pred × Opt))
  | [], _ => Except.ok []
  | (p, o) :: rest, i =>
    match p with
    | PyValue.func f =>
      match o with
      | PyValue.optimizer opt =>
        match checkPairsAux rest (i + 1) with
        | Except.ok l => Except.ok ((f, opt) :: l)
        | Except.error e => Except.error e
      | _ => Except.error (InitError.optNotOptimizer i)
    | _ => Except.error (InitError.predNotCallable i)

/-- `CaseOptimizer.__init__` over dynamically typed arguments: validate the
pairs, then the default optimizer, then build the instance. -/
def caseInit (args : List (PyValue × PyValue)) (dfltArg : Option PyValue)
    (nm : String) : Except InitError CaseOptimizer :=
  match checkPairsAux args 0 with
  | Except.error e => Except.error e
  | Except.ok pairs =>
    match dfltArg with
    | none => Except.ok (mkCase pairs none nm)
    | some (PyValue.optimizer o) => Except.ok (mkCase pairs (some o) nm)
    | some _ => Except.error InitError.defaultNotOptimizer

/-- The inner loop of `_compute_var_opt_mapping` for one variable: for each
`(predicate, _)` pair (with its index), when the predicate claims the
variable, write `var_opt_mapping[var.name] = optimizer_index` and increment
`num_optimizers`. -/
def claimVarAux : List (Pred × Opt) → Variable → Nat → Dict → Nat → Dict × Nat
  | [], _, _, d, n => (d, n)
  | p :: rest, v, i, d, n =>
    if p.1 v then claimVarAux rest v (i + 1) (alistInsert d v.name i) (n + 1)
    else claimVarAux rest v (i + 1) d n

/-- The number of supplied predicates that claim a variable. -/
def claimCount (pairs : List (Pred × Opt)) (v : Variable) : Nat :=
  (pairs.filter (fun p => p.1 v)).length

/-- `_compute_var_opt_mapping`'s loop over `grads_and_vars`: claim each
variable, raise `ValueError` when more than one predicate claimed it, route
unclaimed variables to the default optimizer's index (`len(pred_opt_pairs)`)
or emit a warning when there is no default.  Returns the dict as mutated so
far, the warnings emitted so far, and the raised error (if any). -/
def computeAux (pairs : List (Pred × Opt)) (dflt : Option Opt) :
    List GV → Dict → List String → Dict × List String × Option CaseError
  | [], d, ws => (d, ws, none)
  | gv :: rest, d, ws =>
    let r := claimVarAux pairs gv.2 0 d 0
    if 1 < r.2 then (r.1, ws, some (CaseError.claimConflict gv.2.name))
    else if r.2 = 0 then
      match dflt with
      | some _ =>
          computeAux pairs dflt rest (alistInsert r.1 gv.2.name pairs.length) ws
      | none => computeAux pairs dflt rest r.1 (ws ++ [unclaimedWarning gv.2.name])
    else computeAux pairs dflt rest r.1 ws

/-- `_compute_var_opt_mapping`, starting from the freshly reset empty dict. -/
def computeVarOptMapping (pairs : List (Pred × Opt)) (dflt : Option Opt)
    (gvs : List GV) : Dict × List String × Option CaseError :=
  computeAux pairs dflt gvs [] []

/-- The partition loop of `apply_gradients`, threading the accumulated
`grad_var_lists`: append each pair whose variable name is in the mapping to
the bucket at its optimizer index. -/
def dispatchAux (d : Dict) (gvs : List GV) (lists : List (List GV)) :
    List (List GV) :=
  gvs.foldl
    (fun ls gv =>
      match alistLookup d gv.2.name with
      | some i => ls.set i ((ls.getD i []) ++ [gv])
      | none => ls)
    lists

/-- `grad_var_lists`: one bucket per explicit pair plus one for the default
index, filled from `grads_and_vars` according to the routing table. -/
def dispatchLists (numPairs : Nat) (d : Dict) (gvs : List GV) :
    List (List GV) :=
  dispatchAux d gvs (List.replicate (numPairs + 1) [])

/-- `CaseOptimizer.apply_gradients`: on the first call (unset mapping) build
the routing table — keeping whatever was written even when the build raises —
then partition the pairs and invoke each optimizer in `self.optimizers` with
its bucket (`zip(self.optimizers, grad_var_lists)`).  Returns the updated
instance, the warnings emitted, and either the raised error or the list of
`(delegate, bucket)` invocations. -/
def applyGradients (c : CaseOptimizer) (gvs : List GV) :
    CaseOptimizer × List String × Except CaseError (List (Opt × List GV)) :=
  match c.varOptMapping with
  | some d =>
      (c, [],
        Except.ok (c.optimizers.zip (dispatchLists c.predOptPairs.length d gvs)))
  | none =>
    match computeVarOptMapping c.predOptPairs c.default gvs with
    | (d, ws, some e) => ({ c with varOptMapping := some d }, ws, Except.error e)
    | (d, ws, none) =>
        ({ c with varOptMapping := some d }, ws,
          Except.ok
            (c.optimizers.zip (dispatchLists c.predOptPairs.length d gvs)))

/-- The `AttributeError` raised by `CaseOptimizer.get_config` when
`self.default` is `None` (evaluating `None.get_config()`). -/
inductive ConfigError where
  | noneHasNoGetConfig
deriving DecidableEq, Repr

/-- The configuration mapping produced by `CaseOptimizer.get_config`: the
base optimizer config (its `name`) merged with `optimizer_configs`,
`default_config` and `var_opt_mapping`. -/
structure CaseConfig where
  name : String
  optimizerConfigs : List TaggedConfig
  defaultConfig : TaggedConfig
  varOptMapping : Option Dict
deriving DecidableEq, Repr

/-- `CaseOptimizer.get_config`: tags each delegate's config with that
config's own `"name"` entry, unconditionally evaluates
`self.default.get_config()` (an `AttributeError` when the default is absent),
and emits the cached `var_opt_mapping` verbatim. -/
def CaseOptimizer.getConfig (c : CaseOptimizer) : Except ConfigError CaseConfig :=
  match c.default with
  | none => Except.error ConfigError.noneHasNoGetConfig
  | some dflt =>
      Except.ok
        ⟨c.name,
          c.predOptPairs.map (fun p => ⟨p.2.getConfig.name, p.2.getConfig⟩),
          ⟨dflt.getConfig.name, dflt.getConfig⟩,
          c.varOptMapping⟩

/-- `CaseOptimizer.from_config`: rebuild the delegates and the default from
their tagged configs, install placeholder predicates that always return
`False`, construct the instance with the constructor's default name, and set
`var_opt_mapping` directly from the config. -/
def fromConfig (cfg : CaseConfig) : CaseOptimizer :=
  { mkCase (cfg.optimizerConfigs.map (fun t => (fun _ => false, kerasDeserialize t)))
      (some (kerasDeserialize cfg.defaultConfig)) "optimizer_case" with
    varOptMapping := cfg.varOptMapping }

/-- External TensorFlow `tf.sign`: the standard three-valued sign. -/
def tfSign (x : Rat) : Rat := if 0 < x then 1 else if x < 0 then -1 else 0

/-- Modelled from the spec: `lq.math.sign` lives in `larq/math.py`, which is
not among the sources; the spec defines it as returning `-1` for negative
inputs and `+1` for non-negative inputs. -/
def lqSign (x : Rat) : Rat := if x < 0 then -1 else 1

/-- The state of a `Bop` instance: its hyperparameters and the per-variable
`"m"` accumulator slots (created lazily, initialized to zero). -/
structure BopState where
  gamma : Rat
  threshold : Rat
  slots : List (String × Rat)

/-- `Bop._resource_apply_dense`: update the accumulator to
`(1 - gamma) * m + gamma * grad`, then assign the variable to
`lq.math.sign(-tf.sign(var * m_t - threshold) * var)`. -/
def bopApplyDense (s : BopState) (g : Grad) (v : Variable) :
    BopState × Variable :=
  let m := (alistLookup s.slots v.name).getD 0
  let mT := (1 - s.gamma) * m + s.gamma * g
  let sNew : BopState := ⟨s.gamma, s.threshold, alistInsert s.slots v.name mT⟩
  let varT := lqSign (-(tfSign (v.value * mT - s.threshold)) * v.value)
  (sNew, ⟨v.name, varT⟩)

/-- Where a variable lands after one dispatch: the index of the first bucket
containing it together with the gradient it was dispatched with. -/
def bucketFindAux : List (List GV) → Variable → Nat → Option (Nat × Grad)
  | [], _, _ => none
  | b :: rest, v, i =>
    match b.find? (fun gv => gv.2 == v) with
    | some gv => some (i, gv.1)
    | none => bucketFindAux rest v (i + 1)

/-- External delegate contract: each delegate mutates exactly the variables
in its bucket (by its own update rule); a variable dispatched to no delegate
keeps its value. -/
def updatedValue (rule : Nat → Grad → Rat → Rat) (buckets : List (List GV))
    (v : Variable) : Rat :=
  match bucketFindAux buckets v 0 with
  | some r => rule r.1 r.2 v.value
  | none => v.value

/-! ### Association-list lemmas -/

theorem alistLookup_map_overwrite {α : Type} (d : List (String × α)) (k : String) (x : α) :
    alistLookup (d.map (fun p => if p.1 = k then (k, x) else p)) k =
      if (alistLookup d k).isSome then some x else none := by
  induction d with
  | nil => simp [alistLookup]
  | cons p rest ih =>
    by_cases h : p.1 = k
    · simp [alistLookup, h]
    · simp [alistLookup, h, ih]

theorem alistLookup_append_single {α : Type} (d : List (String × α)) (k : String) (x : α)
    (h : alistLookup d k = none) : alistLookup (d ++ [(k, x)]) k = some x := by
  induction d with
  | nil => simp [alistLookup]
  | cons p rest ih =>
    by_cases hp : p.1 = k
    · simp [alistLookup, hp] at h
    · simp [alistLookup, hp] at h ⊢
      exact ih h

theorem alistLookup_insert_self {α : Type} (d : List (String × α)) (k : String) (x : α) :
    alistLookup (alistInsert d k x) k = some x := by
  unfold alistInsert
  by_cases h : (alistLookup d k).isSome
  · simp [h, alistLookup_map_overwrite]
  · rw [if_neg h]
    exact alistLookup_append_single d k x (Option.not_isSome_iff_eq_none.mp h)

theorem alistLookup_map_overwrite_ne {α : Type} (d : List (String × α)) (k k' : String)
    (x : α) (hne : k' ≠ k) :
    alistLookup (d.map (fun p => if p.1 = k then (k, x) else p)) k' = alistLookup d k' := by
  induction d with
  | nil => simp [alistLookup]
  | cons p rest ih =>
    simp only [List.map_cons]
    by_cases h : p.1 = k
    · rw [if_pos h]
      have hk : ¬k = k' := fun hh => hne hh.symm
      have hp : ¬p.1 = k' := by rw [h]; exact hk
      simp [alistLookup, hk, hp, ih]
    · rw [if_neg h]
      by_cases h2 : p.1 = k'
      · simp [alistLookup, h2]
      · simp [alistLookup, h2, ih]

theorem alistLookup_append_single_ne {α : Type} (d : List (String × α)) (k k' : String)
    (x : α) (hne : k' ≠ k) : alistLookup (d ++ [(k, x)]) k' = alistLookup d k' := by
  induction d with
  | nil =>
    have hk : ¬k = k' := fun h => hne h.symm
    simp [alistLookup, hk]
  | cons p rest ih =>
    by_cases hp : p.1 = k'
    · simp [alistLookup, hp]
    · simp [alistLookup, hp, ih]

theorem alistLookup_insert_ne {α : Type} (d : List (String × α)) (k k' : String) (x : α)
    (hne : k' ≠ k) : alistLookup (alistInsert d k x) k' = alistLookup d k' := by
  unfold alistInsert
  by_cases h : (alistLookup d k).isSome
  · simp [h, alistLookup_map_overwrite_ne d k k' x hne]
  · simp [h, alistLookup_append_single_ne d k k' x hne]

theorem alistLookup_insert_isSome {α : Type} (d : List (String × α)) (k k' : String) (x : α)
    (h : (alistLookup d k').isSome) : (alistLookup (alistInsert d k x) k').isSome := by
  by_cases he : k' = k
  · subst he
    simp [alistLookup_insert_self]
  · rwa [alistLookup_insert_ne d k k' x he]

/-! ### Lemmas about the per-variable claim loop -/

/-- The position of the last predicate (at offsets starting from `i`) that
claims the variable. -/
def lastClaimAux : List (Pred × Opt) → Variable → Nat → Option Nat
  | [], _, _ => none
  | p :: rest, v, i =>
    match lastClaimAux rest v (i + 1) with
    | some j => some j
    | none => if p.1 v then some i else none

/-- The index of the last predicate claiming a variable. -/
def lastClaimIndex (pairs : List (Pred × Opt)) (v : Variable) : Option Nat :=
  lastClaimAux pairs v 0

theorem claimVarAux_count (pairs : List (Pred × Opt)) (v : Variable) :
    ∀ i d n, (claimVarAux pairs v i d n).2 = n + claimCount pairs v := by
  induction pairs with
  | nil => intro i d n; simp [claimVarAux, claimCount]
  | cons p rest ih =>
    intro i d n
    by_cases h : p.1 v
    · simp only [claimVarAux, if_pos h]
      rw [ih]
      simp [claimCount, List.filter_cons, h]
      omega
    · simp only [claimVarAux, if_neg h]
      rw [ih]
      simp [claimCount, List.filter_cons, h]

theorem claimVarAux_lookup_ne (pairs : List (Pred × Opt)) (v : Variable) (k : String)
    (hk : k ≠ v.name) :
    ∀ i d n, alistLookup (claimVarAux pairs v i d n).1 k = alistLookup d k := by
  induction pairs with
  | nil => intro i d n; simp [claimVarAux]
  | cons p rest ih =>
    intro i d n
    by_cases h : p.1 v
    · simp only [claimVarAux, if_pos h]
      rw [ih, alistLookup_insert_ne d v.name k i hk]
    · simp only [claimVarAux, if_neg h]
      exact ih (i + 1) d n

theorem claimVarAux_lookup_self (pairs : List (Pred × Opt)) (v : Variable) :
    ∀ i d n, alistLookup (claimVarAux pairs v i d n).1 v.name =
      (lastClaimAux pairs v i).elim (alistLookup d v.name) some := by
  induction pairs with
  | nil => intro i d n; simp [claimVarAux, lastClaimAux]
  | cons p rest ih =>
    intro i d n
    by_cases h : p.1 v
    · simp only [claimVarAux, if_pos h, lastClaimAux]
      rw [ih]
      cases hrec : lastClaimAux rest v (i + 1) with
      | some j => simp
      | none => simp [h, alistLookup_insert_self]
    · simp only [claimVarAux, if_neg h, lastClaimAux]
      rw [ih]
      cases hrec : lastClaimAux rest v (i + 1) with
      | some j => simp
      | none => simp [h]

theorem claimVarAux_lookup_bound (pairs : List (Pred × Opt)) (v : Variable) (k : String)
    (j : Nat) :
    ∀ i d n, alistLookup (claimVarAux pairs v i d n).1 k = some j →
      alistLookup d k = some j ∨ j < i + pairs.length := by
  induction pairs with
  | nil => intro i d n h; exact Or.inl h
  | cons p rest ih =>
    intro i d n h
    by_cases hp : p.1 v
    · simp only [claimVarAux, if_pos hp] at h
      rcases ih (i + 1) (alistInsert d v.name i) (n + 1) h with h2 | h2
      · by_cases hk : k = v.name
        · subst hk
          rw [alistLookup_insert_self] at h2
          right
          simp only [Option.some.injEq] at h2
          subst h2
          simp only [List.length_cons]
          omega
        · rw [alistLookup_insert_ne d v.name k i hk] at h2
          exact Or.inl h2
      · right
        simp only [List.length_cons]
        omega
    · simp only [claimVarAux, if_neg hp] at h
      rcases ih (i + 1) d n h with h2 | h2
      · exact Or.inl h2
      · right
        simp only [List.length_cons]
        omega

theorem claimVarAux_isSome_preserve (pairs : List (Pred × Opt)) (v : Variable)
    (k : String) :
    ∀ i d n, (alistLookup d k).isSome →
      (alistLookup (claimVarAux pairs v i d n).1 k).isSome := by
  induction pairs with
  | nil => intro i d n h; exact h
  | cons p rest ih =>
    intro i d n h
    by_cases hp : p.1 v
    · simp only [claimVarAux, if_pos hp]
      exact ih (i + 1) _ (n + 1) (alistLookup_insert_isSome d v.name k i h)
    · simp only [claimVarAux, if_neg hp]
      exact ih (i + 1) d n h

theorem lastClaimAux_isSome (pairs : List (Pred × Opt)) (v : Variable)
    (h : 1 ≤ claimCount pairs v) : ∀ i, (lastClaimAux pairs v i).isSome := by
  induction pairs with
  | nil => simp [claimCount] at h
  | cons p rest ih =>
    intro i
    by_cases hp : p.1 v
    · simp only [lastClaimAux]
      cases hrec : lastClaimAux rest v (i + 1) with
      | some j => simp
      | none => simp [hp]
    · simp only [claimCount, List.filter_cons, hp] at h
      simp only [lastClaimAux]
      have := ih h (i + 1)
      cases hrec : lastClaimAux rest v (i + 1) with
      | some j => simp
      | none => rw [hrec] at this; simp at this

theorem claimCount_cons (p : Pred × Opt) (rest : List (Pred × Opt)) (v : Variable) :
    claimCount (p :: rest) v =
      claimCount rest v + (if p.1 v then 1 else 0) := by
  by_cases hp : p.1 v
  · simp only [claimCount, List.filter_cons, hp, if_pos, List.length_cons, if_true]
  · simp only [claimCount, List.filter_cons, hp, Bool.false_eq_true, if_false,
      Nat.add_zero]

theorem lastClaimAux_eq_none (pairs : List (Pred × Opt)) (v : Variable)
    (h : claimCount pairs v = 0) : ∀ i, lastClaimAux pairs v i = none := by
  induction pairs with
  | nil => intro i; simp [lastClaimAux]
  | cons p rest ih =>
    intro i
    rw [claimCount_cons] at h
    by_cases hp : p.1 v
    · rw [if_pos hp] at h
      omega
    · rw [if_neg hp, Nat.add_zero] at h
      simp only [lastClaimAux, ih h (i + 1)]
      simp [hp]

theorem claimVarAux_lookup_unclaimed (pairs : List (Pred × Opt)) (v : Variable)
    (k : String) (h : claimCount pairs v = 0) (i : Nat) (d : Dict) (n : Nat) :
    alistLookup (claimVarAux pairs v i d n).1 k = alistLookup d k := by
  by_cases hk : k = v.name
  · subst hk
    rw [claimVarAux_lookup_self, lastClaimAux_eq_none pairs v h i]
    simp
  · exact claimVarAux_lookup_ne pairs v k hk i d n

/-! ### Lemmas about the routing-table construction loop -/

theorem computeAux_no_conflict (pairs : List (Pred × Opt)) (dflt : Option Opt) :
    ∀ gvs d ws, (∀ gv ∈ gvs, claimCount pairs gv.2 ≤ 1) →
      (computeAux pairs dflt gvs d ws).2.2 = none := by
  intro gvs
  induction gvs with
  | nil => intro d ws _; simp [computeAux]
  | cons gv rest ih =>
    intro d ws hle
    have hcount : (claimVarAux pairs gv.2 0 d 0).2 = claimCount pairs gv.2 := by
      rw [claimVarAux_count, Nat.zero_add]
    have hgv : claimCount pairs gv.2 ≤ 1 := hle gv (List.mem_cons_self gv rest)
    have hrest : ∀ gv2 ∈ rest, claimCount pairs gv2.2 ≤ 1 :=
      fun gv2 h2 => hle gv2 (List.mem_cons_of_mem gv h2)
    simp only [computeAux]
    rw [if_neg (by omega)]
    by_cases h0 : (claimVarAux pairs gv.2 0 d 0).2 = 0
    · rw [if_pos h0]
      cases dflt with
      | some o => exact ih _ _ hrest
      | none => exact ih _ _ hrest
    · rw [if_neg h0]
      exact ih _ _ hrest

theorem computeAux_conflict (pairs : List (Pred × Opt)) (dflt : Option Opt) :
    ∀ gvs d ws, (∃ gv ∈ gvs, 2 ≤ claimCount pairs gv.2) →
      ∃ g w, (g, w) ∈ gvs ∧ 2 ≤ claimCount pairs w ∧
        (computeAux pairs dflt gvs d ws).2.2 =
          some (CaseError.claimConflict w.name) := by
  intro gvs
  induction gvs with
  | nil => intro d ws h; simp at h
  | cons gv rest ih =>
    intro d ws h
    have hcount : (claimVarAux pairs gv.2 0 d 0).2 = claimCount pairs gv.2 := by
      rw [claimVarAux_count, Nat.zero_add]
    by_cases hgv : 2 ≤ claimCount pairs gv.2
    · refine ⟨gv.1, gv.2, List.mem_cons_self gv rest, hgv, ?_⟩
      simp only [computeAux]
      rw [if_pos (by omega)]
    · have hrest : ∃ gv2 ∈ rest, 2 ≤ claimCount pairs gv2.2 := by
        rcases h with ⟨gv2, hmem, h2⟩
        rcases List.mem_cons.mp hmem with he | hm
        · subst he; omega
        · exact ⟨gv2, hm, h2⟩
      simp only [computeAux]
      rw [if_neg (by omega)]
      by_cases h0 : (claimVarAux pairs gv.2 0 d 0).2 = 0
      · rw [if_pos h0]
        cases dflt with
        | some o =>
          rcases ih _ _ hrest with ⟨g, w, hm, h2, herr⟩
          exact ⟨g, w, List.mem_cons_of_mem gv hm, h2, herr⟩
        | none =>
          rcases ih _ _ hrest with ⟨g, w, hm, h2, herr⟩
          exact ⟨g, w, List.mem_cons_of_mem gv hm, h2, herr⟩
      · rw [if_neg h0]
        rcases ih _ _ hrest with ⟨g, w, hm, h2, herr⟩
        exact ⟨g, w, List.mem_cons_of_mem gv hm, h2, herr⟩

theorem computeAux_lookup_isSome (pairs : List (Pred × Opt)) (dflt : Option Opt) :
    ∀ gvs d ws k, (alistLookup d k).isSome →
      (alistLookup (computeAux pairs dflt gvs d ws).1 k).isSome := by
  intro gvs
  induction gvs with
  | nil => intro d ws k h; exact h
  | cons gv rest ih =>
    intro d ws k h
    have hstep : (alistLookup (claimVarAux pairs gv.2 0 d 0).1 k).isSome :=
      claimVarAux_isSome_preserve pairs gv.2 k 0 d 0 h
    simp only [computeAux]
    by_cases hc : 1 < (claimVarAux pairs gv.2 0 d 0).2
    · rw [if_pos hc]
      exact hstep
    · rw [if_neg hc]
      by_cases h0 : (claimVarAux pairs gv.2 0 d 0).2 = 0
      · rw [if_pos h0]
        cases dflt with
        | some o =>
          exact ih _ _ k (alistLookup_insert_isSome _ _ _ _ hstep)
        | none => exact ih _ _ k hstep
      · rw [if_neg h0]
        exact ih _ _ k hstep

theorem computeAux_lookup_bound (pairs : List (Pred × Opt)) (dflt : Option Opt) :
    ∀ gvs d ws, (∀ k j, alistLookup d k = some j → j ≤ pairs.length) →
      ∀ k j, alistLookup (computeAux pairs dflt gvs d ws).1 k = some j →
        j ≤ pairs.length := by
  intro gvs
  induction gvs with
  | nil => intro d ws hd k j h; exact hd k j h
  | cons gv rest ih =>
    intro d ws hd k j
    have hstep : ∀ k j, alistLookup (claimVarAux pairs gv.2 0 d 0).1 k = some j →
        j ≤ pairs.length := by
      intro k' j' h'
      rcases claimVarAux_lookup_bound pairs gv.2 k' j' 0 d 0 h' with h2 | h2
      · exact hd k' j' h2
      · omega
    simp only [computeAux]
    by_cases hc : 1 < (claimVarAux pairs gv.2 0 d 0).2
    · rw [if_pos hc]
      exact hstep k j
    · rw [if_neg hc]
      by_cases h0 : (claimVarAux pairs gv.2 0 d 0).2 = 0
      · rw [if_pos h0]
        cases dflt with
        | some o =>
          refine ih _ _ ?_ k j
          intro k' j' h'
          by_cases hk : k' = gv.2.name
          · subst hk
            rw [alistLookup_insert_self] at h'
            simp only [Option.some.injEq] at h'
            omega
          · rw [alistLookup_insert_ne _ _ _ _ hk] at h'
            exact hstep k' j' h'
        | none => exact ih _ _ hstep k j
      · rw [if_neg h0]
        exact ih _ _ hstep k j

theorem computeAux_lookup_bound_strict (pairs : List (Pred × Opt)) :
    ∀ gvs d ws, (∀ k j, alistLookup d k = some j → j < pairs.length) →
      ∀ k j, alistLookup (computeAux pairs none gvs d ws).1 k = some j →
        j < pairs.length := by
  intro gvs
  induction gvs with
  | nil => intro d ws hd k j h; exact hd k j h
  | cons gv rest ih =>
    intro d ws hd k j
    have hstep : ∀ k j, alistLookup (claimVarAux pairs gv.2 0 d 0).1 k = some j →
        j < pairs.length := by
      intro k' j' h'
      rcases claimVarAux_lookup_bound pairs gv.2 k' j' 0 d 0 h' with h2 | h2
      · exact hd k' j' h2
      · omega
    simp only [computeAux]
    by_cases hc : 1 < (claimVarAux pairs gv.2 0 d 0).2
    · rw [if_pos hc]
      exact hstep k j
    · rw [if_neg hc]
      by_cases h0 : (claimVarAux pairs gv.2 0 d 0).2 = 0
      · rw [if_pos h0]
        exact ih _ _ hstep k j
      · rw [if_neg h0]
        exact ih _ _ hstep k j

theorem computeAux_covers (pairs : List (Pred × Opt)) (dflt : Option Opt) :
    ∀ gvs d ws, (∀ gv ∈ gvs, claimCount pairs gv.2 ≤ 1) →
      (∀ gv ∈ gvs, claimCount pairs gv.2 = 1 ∨ dflt.isSome) →
      ∀ gv ∈ gvs,
        (alistLookup (computeAux pairs dflt gvs d ws).1 gv.2.name).isSome := by
  intro gvs
  induction gvs with
  | nil => intro d ws _ _ gv h; simp at h
  | cons gv0 rest ih =>
    intro d ws hle hcov gv hmem
    have hcount : (claimVarAux pairs gv0.2 0 d 0).2 = claimCount pairs gv0.2 := by
      rw [claimVarAux_count, Nat.zero_add]
    have h0le : claimCount pairs gv0.2 ≤ 1 := hle gv0 (List.mem_cons_self gv0 rest)
    have hrestle : ∀ gv2 ∈ rest, claimCount pairs gv2.2 ≤ 1 :=
      fun gv2 h2 => hle gv2 (List.mem_cons_of_mem gv0 h2)
    have hrestcov : ∀ gv2 ∈ rest, claimCount pairs gv2.2 = 1 ∨ dflt.isSome :=
      fun gv2 h2 => hcov gv2 (List.mem_cons_of_mem gv0 h2)
    simp only [computeAux]
    rw [if_neg (by omega)]
    by_cases h0 : (claimVarAux pairs gv0.2 0 d 0).2 = 0
    · rw [if_pos h0]
      have hdflt : dflt.isSome := by
        rcases hcov gv0 (List.mem_cons_self gv0 rest) with h1 | h1
        · omega
        · exact h1
      cases dflt with
      | none => simp at hdflt
      | some o =>
        rcases List.mem_cons.mp hmem with he | hm
        · subst he
          refine computeAux_lookup_isSome pairs (some o) rest _ _ _ ?_
          rw [alistLookup_insert_self]
          rfl
        · exact ih _ _ hrestle hrestcov gv hm
    · rw [if_neg h0]
      rcases List.mem_cons.mp hmem with he | hm
      · subst he
        refine computeAux_lookup_isSome pairs dflt rest _ _ _ ?_
        rw [claimVarAux_lookup_self]
        have hsome : (lastClaimAux pairs gv.2 0).isSome :=
          lastClaimAux_isSome pairs gv.2 (by omega) 0
        rcases Option.isSome_iff_exists.mp hsome with ⟨j, hj⟩
        rw [hj]
        rfl
      · exact ih _ _ hrestle hrestcov gv hm

theorem computeAux_warnings_mono (pairs : List (Pred × Opt)) (dflt : Option Opt) :
    ∀ gvs d ws w, w ∈ ws → w ∈ (computeAux pairs dflt gvs d ws).2.1 := by
  intro gvs
  induction gvs with
  | nil => intro d ws w h; exact h
  | cons gv rest ih =>
    intro d ws w h
    simp only [computeAux]
    by_cases hc : 1 < (claimVarAux pairs gv.2 0 d 0).2
    · rw [if_pos hc]; exact h
    · rw [if_neg hc]
      by_cases h0 : (claimVarAux pairs gv.2 0 d 0).2 = 0
      · rw [if_pos h0]
        cases dflt with
        | some o => exact ih _ _ w h
        | none => exact ih _ _ w (List.mem_append_left _ h)
      · rw [if_neg h0]
        exact ih _ _ w h

theorem computeAux_warning_emitted (pairs : List (Pred × Opt)) :
    ∀ gvs d ws g v, (g, v) ∈ gvs → claimCount pairs v = 0 →
      (∀ gv ∈ gvs, claimCount pairs gv.2 ≤ 1) →
      unclaimedWarning v.name ∈ (computeAux pairs none gvs d ws).2.1 := by
  intro gvs
  induction gvs with
  | nil => intro d ws g v h; simp at h
  | cons gv0 rest ih =>
    intro d ws g v hmem hv hle
    have hcount : (claimVarAux pairs gv0.2 0 d 0).2 = claimCount pairs gv0.2 := by
      rw [claimVarAux_count, Nat.zero_add]
    have h0le : claimCount pairs gv0.2 ≤ 1 := hle gv0 (List.mem_cons_self gv0 rest)
    have hrestle : ∀ gv2 ∈ rest, claimCount pairs gv2.2 ≤ 1 :=
      fun gv2 h2 => hle gv2 (List.mem_cons_of_mem gv0 h2)
    simp only [computeAux]
    rw [if_neg (by omega)]
    rcases List.mem_cons.mp hmem with he | hm
    · have hv0 : gv0 = (g, v) := he.symm
      subst hv0
      rw [if_pos (by simpa [hcount] using hv)]
      exact computeAux_warnings_mono pairs none rest _ _ _
        (List.mem_append_right _ (List.mem_singleton.mpr rfl))
    · by_cases h0 : (claimVarAux pairs gv0.2 0 d 0).2 = 0
      · rw [if_pos h0]
        exact ih _ _ g v hm hv hrestle
      · rw [if_neg h0]
        exact ih _ _ g v hm hv hrestle

theorem computeAux_lookup_none (pairs : List (Pred × Opt)) :
    ∀ gvs d ws k, (∀ gv ∈ gvs, gv.2.name = k → claimCount pairs gv.2 = 0) →
      alistLookup d k = none →
      alistLookup (computeAux pairs none gvs d ws).1 k = none := by
  intro gvs
  induction gvs with
  | nil => intro d ws k _ h; exact h
  | cons gv0 rest ih =>
    intro d ws k hun hd
    have hrest : ∀ gv2 ∈ rest, gv2.2.name = k → claimCount pairs gv2.2 = 0 :=
      fun gv2 h2 => hun gv2 (List.mem_cons_of_mem gv0 h2)
    have hstep : alistLookup (claimVarAux pairs gv0.2 0 d 0).1 k = none := by
      by_cases hk : gv0.2.name = k
      · rw [claimVarAux_lookup_unclaimed pairs gv0.2 k
          (hun gv0 (List.mem_cons_self gv0 rest) hk) 0 d 0]
        exact hd
      · rw [claimVarAux_lookup_ne pairs gv0.2 k (fun h => hk h.symm) 0 d 0]
        exact hd
    simp only [computeAux]
    by_cases hc : 1 < (claimVarAux pairs gv0.2 0 d 0).2
    · rw [if_pos hc]
      exact hstep
    · rw [if_neg hc]
      by_cases h0 : (claimVarAux pairs gv0.2 0 d 0).2 = 0
      · rw [if_pos h0]
        exact ih _ _ k hrest hstep
      · rw [if_neg h0]
        exact ih _ _ k hrest hstep

/-! ### Lemmas about the partition of `grads_and_vars` into buckets -/

theorem list_getD_set_eq {α : Type} (l : List α) :
    ∀ i, i < l.length → ∀ a dflt : α, (l.set i a).getD i dflt = a := by
  induction l with
  | nil => intro i h; simp at h
  | cons x t ih =>
    intro i h a dflt
    cases i with
    | zero => rfl
    | succ n =>
      simp only [List.set_cons_succ, List.getD_cons_succ]
      exact ih n (by simpa using h) a dflt

theorem list_getD_set_ne {α : Type} (l : List α) :
    ∀ i j, i ≠ j → ∀ a dflt : α, (l.set i a).getD j dflt = l.getD j dflt := by
  induction l with
  | nil => intro i j _ a dflt; simp
  | cons x t ih =>
    intro i j hne a dflt
    cases i with
    | zero =>
      cases j with
      | zero => exact absurd rfl hne
      | succ m => rfl
    | succ n =>
      cases j with
      | zero => rfl
      | succ m =>
        simp only [List.set_cons_succ, List.getD_cons_succ]
        exact ih n m (by omega) a dflt

theorem getD_replicate_nil {α : Type} (n : Nat) :
    ∀ i, (List.replicate n ([] : List α)).getD i [] = [] := by
  induction n with
  | zero => intro i; simp
  | succ m ih =>
    intro i
    cases i with
    | zero => rfl
    | succ k => simp only [List.replicate, List.getD_cons_succ]; exact ih k

theorem dispatchAux_cons (d : Dict) (gv : GV) (rest : List GV)
    (lists : List (List GV)) :
    dispatchAux d (gv :: rest) lists =
      dispatchAux d rest
        (match alistLookup d gv.2.name with
         | some i => lists.set i (lists.getD i [] ++ [gv])
         | none => lists) := rfl

theorem dispatchAux_length (d : Dict) :
    ∀ gvs lists, (dispatchAux d gvs lists).length = lists.length := by
  intro gvs
  induction gvs with
  | nil => intro lists; rfl
  | cons gv rest ih =>
    intro lists
    rw [dispatchAux_cons]
    cases h : alistLookup d gv.2.name with
    | none => simp only [h]; rw [ih]
    | some j => simp only [h]; rw [ih, List.length_set]

theorem dispatchAux_getD (d : Dict) :
    ∀ gvs lists i, i < lists.length →
      (∀ k j, alistLookup d k = some j → j < lists.length) →
      (dispatchAux d gvs lists).getD i [] =
        lists.getD i [] ++
          gvs.filter (fun gv => alistLookup d gv.2.name == some i) := by
  intro gvs
  induction gvs with
  | nil => intro lists i _ _; simp [dispatchAux]
  | cons gv rest ih =>
    intro lists i hi hbound
    rw [dispatchAux_cons]
    cases h : alistLookup d gv.2.name with
    | none =>
      simp only [h]
      rw [ih lists i hi hbound]
      simp [List.filter_cons, h]
    | some j =>
      simp only [h]
      have hj : j < lists.length := hbound _ j h
      have hlen : (lists.set j (lists.getD j [] ++ [gv])).length = lists.length :=
        List.length_set lists j _
      rw [ih _ i (by rw [hlen]; exact hi) (by rw [hlen]; exact hbound)]
      by_cases hij : i = j
      · subst hij
        rw [list_getD_set_eq lists i hj]
        simp [List.filter_cons, h, List.append_assoc]
      · rw [list_getD_set_ne lists j i (fun hh => hij hh.symm)]
        have hji : ¬j = i := fun hh => hij hh.symm
        simp [List.filter_cons, h, hji]

theorem dispatchAux_mem_isSome (d : Dict) :
    ∀ gvs lists, (∀ b ∈ lists, ∀ gv ∈ b, (alistLookup d gv.2.name).isSome) →
      ∀ b ∈ dispatchAux d gvs lists, ∀ gv ∈ b,
        (alistLookup d gv.2.name).isSome := by
  intro gvs
  induction gvs with
  | nil => intro lists h; exact h
  | cons gv0 rest ih =>
    intro lists hinv
    rw [dispatchAux_cons]
    cases h : alistLookup d gv0.2.name with
    | none => simp only [h]; exact ih lists hinv
    | some j =>
      simp only [h]
      refine ih _ ?_
      intro b hb gv hgv
      rcases List.mem_or_eq_of_mem_set hb with hb2 | hb2
      · exact hinv b hb2 gv hgv
      · subst hb2
        rcases List.mem_append.mp hgv with hg | hg
        · by_cases hj : j < lists.length
          · have : lists.getD j [] ∈ lists := by
              rw [List.getD_eq_getElem lists [] hj]
              exact List.getElem_mem hj
            exact hinv _ this gv hg
          · rw [List.getD_eq_default lists [] (by omega)] at hg
            simp at hg
        · rw [List.mem_singleton.mp hg]
          rw [h]
          rfl

theorem mem_flatten_zip_snd {α β : Type} (b : β) :
    ∀ (l₁ : List α) (l₂ : List (List β)),
      b ∈ ((l₁.zip l₂).map Prod.snd).flatten ↔
        ∃ i, i < l₁.length ∧ i < l₂.length ∧ b ∈ l₂.getD i [] := by
  intro l₁
  induction l₁ with
  | nil =>
    intro l₂
    simp
  | cons a t ih =>
    intro l₂
    cases l₂ with
    | nil => simp
    | cons s t₂ =>
      simp only [List.zip_cons_cons, List.map_cons, List.flatten_cons,
        List.mem_append, ih t₂, List.length_cons]
      constructor
      · rintro (hs | ⟨i, h1, h2, h3⟩)
        · exact ⟨0, by omega, by omega, hs⟩
        · exact ⟨i + 1, by omega, by omega, h3⟩
      · rintro ⟨i, h1, h2, h3⟩
        cases i with
        | zero => exact Or.inl h3
        | succ m =>
          right
          exact ⟨m, by omega, by omega, h3⟩

theorem dispatchLists_length (n : Nat) (d : Dict) (gvs : List GV) :
    (dispatchLists n d gvs).length = n + 1 := by
  rw [dispatchLists, dispatchAux_length, List.length_replicate]

theorem dispatchLists_getD (n : Nat) (d : Dict) (gvs : List GV)
    (hbound : ∀ k j, alistLookup d k = some j → j < n + 1) (i : Nat)
    (hi : i < n + 1) :
    (dispatchLists n d gvs).getD i [] =
      gvs.filter (fun gv => alistLookup d gv.2.name == some i) := by
  rw [dispatchLists,
    dispatchAux_getD d gvs _ i (by rwa [List.length_replicate])
      (by rw [List.length_replicate]; exact hbound),
    getD_replicate_nil, List.nil_append]

theorem dispatchLists_mem_isSome (n : Nat) (d : Dict) (gvs : List GV) :
    ∀ b ∈ dispatchLists n d gvs, ∀ gv ∈ b,
      (alistLookup d gv.2.name).isSome := by
  refine dispatchAux_mem_isSome d gvs _ ?_
  intro b hb gv hgv
  rw [List.eq_of_mem_replicate hb] at hgv
  simp at hgv

/-! ### Lemmas about the constructor's type checks -/

theorem checkPairsAux_typed (pairs : List (Pred × Opt)) :
    ∀ i, checkPairsAux
      (pairs.map (fun p => (PyValue.func p.1, PyValue.optimizer p.2))) i =
        Except.ok pairs := by
  induction pairs with
  | nil => intro i; rfl
  | cons p rest ih =>
    intro i
    have hred : checkPairsAux
        ((PyValue.func p.1, PyValue.optimizer p.2) ::
          rest.map (fun p => (PyValue.func p.1, PyValue.optimizer p.2))) i =
        match checkPairsAux
            (rest.map (fun p => (PyValue.func p.1, PyValue.optimizer p.2)))
            (i + 1) with
        | Except.ok l => Except.ok ((p.1, p.2) :: l)
        | Except.error e => Except.error e := rfl
    rw [List.map_cons, hred, ih (i + 1)]

theorem caseInit_typed (pairs : List (Pred × Opt)) (dflt : Option Opt)
    (nm : String) :
    caseInit (pairs.map (fun p => (PyValue.func p.1, PyValue.optimizer p.2)))
      (dflt.map PyValue.optimizer) nm = Except.ok (mkCase pairs dflt nm) := by
  unfold caseInit
  rw [checkPairsAux_typed]
  cases dflt with
  | none => rfl
  | some o => rfl

theorem checkPairsAux_ok_iff (args : List (PyValue × PyValue)) :
    ∀ i, (∃ l, checkPairsAux args i = Except.ok l) ↔
      ∀ pair ∈ args, pair.1.isCallable = true ∧ pair.2.isOptimizer = true := by
  induction args with
  | nil =>
    intro i
    constructor
    · intro _ pair hpair
      simp at hpair
    · intro _
      exact ⟨[], rfl⟩
  | cons a rest ih =>
    intro i
    obtain ⟨p, o⟩ := a
    cases p with
    | func f =>
      cases o with
      | optimizer opt =>
        have hred : checkPairsAux ((PyValue.func f, PyValue.optimizer opt) :: rest) i =
            match checkPairsAux rest (i + 1) with
            | Except.ok l => Except.ok ((f, opt) :: l)
            | Except.error e => Except.error e := rfl
        rw [hred]
        cases hrec : checkPairsAux rest (i + 1) with
        | ok l =>
          constructor
          · intro _ pair hpair
            rcases List.mem_cons.mp hpair with he | hm
            · subst he; exact ⟨rfl, rfl⟩
            · exact ((ih (i + 1)).mp ⟨l, hrec⟩) pair hm
          · intro _
            exact ⟨(f, opt) :: l, rfl⟩
        | error e =>
          constructor
          · rintro ⟨l, hl⟩
            simp at hl
          · intro hall
            rcases (ih (i + 1)).mpr
              (fun pair hm => hall pair (List.mem_cons_of_mem _ hm)) with ⟨l, hl⟩
            rw [hrec] at hl
            simp at hl
      | func g =>
        have hred : checkPairsAux ((PyValue.func f, PyValue.func g) :: rest) i =
            Except.error (InitError.optNotOptimizer i) := rfl
        rw [hred]
        constructor
        · rintro ⟨l, hl⟩; simp at hl
        · intro hall
          have h2 := (hall (PyValue.func f, PyValue.func g)
            (List.mem_cons_self _ _)).2
          simp [PyValue.isOptimizer] at h2
      | prim t =>
        have hred : checkPairsAux ((PyValue.func f, PyValue.prim t) :: rest) i =
            Except.error (InitError.optNotOptimizer i) := rfl
        rw [hred]
        constructor
        · rintro ⟨l, hl⟩; simp at hl
        · intro hall
          have h2 := (hall (PyValue.func f, PyValue.prim t)
            (List.mem_cons_self _ _)).2
          simp [PyValue.isOptimizer] at h2
    | optimizer po =>
      have hred : checkPairsAux ((PyValue.optimizer po, o) :: rest) i =
          Except.error (InitError.predNotCallable i) := rfl
      rw [hred]
      constructor
      · rintro ⟨l, hl⟩; simp at hl
      · intro hall
        have h1 := (hall (PyValue.optimizer po, o) (List.mem_cons_self _ _)).1
        simp [PyValue.isCallable] at h1
    | prim t =>
      have hred : checkPairsAux ((PyValue.prim t, o) :: rest) i =
          Except.error (InitError.predNotCallable i) := rfl
      rw [hred]
      constructor
      · rintro ⟨l, hl⟩; simp at hl
      · intro hall
        have h1 := (hall (PyValue.prim t, o) (List.mem_cons_self _ _)).1
        simp [PyValue.isCallable] at h1

theorem checkPairsAux_error (args : List (PyValue × PyValue)) :
    ∀ i e, checkPairsAux args i = Except.error e →
      ∃ j pair, args.get? j = some pair ∧
        ((e = InitError.predNotCallable (i + j) ∧ pair.1.isCallable = false) ∨
          (e = InitError.optNotOptimizer (i + j) ∧
            pair.2.isOptimizer = false)) := by
  induction args with
  | nil => intro i e h; simp [checkPairsAux] at h
  | cons a rest ih =>
    intro i e h
    obtain ⟨p, o⟩ := a
    cases p with
    | func f =>
      cases o with
      | optimizer opt =>
        have hred : checkPairsAux ((PyValue.func f, PyValue.optimizer opt) :: rest) i =
            match checkPairsAux rest (i + 1) with
            | Except.ok l => Except.ok ((f, opt) :: l)
            | Except.error e => Except.error e := rfl
        rw [hred] at h
        cases hrec : checkPairsAux rest (i + 1) with
        | ok l => rw [hrec] at h; simp at h
        | error e2 =>
          rw [hrec] at h
          simp only [Except.error.injEq] at h
          subst h
          rcases ih (i + 1) e2 hrec with ⟨j, pair, hget, hcase⟩
          refine ⟨j + 1, pair, by simpa using hget, ?_⟩
          rcases hcase with ⟨he, hc⟩ | ⟨he, hc⟩
          · exact Or.inl ⟨by rw [he]; congr 1; omega, hc⟩
          · exact Or.inr ⟨by rw [he]; congr 1; omega, hc⟩
      | func g =>
        have hred : checkPairsAux ((PyValue.func f, PyValue.func g) :: rest) i =
            Except.error (InitError.optNotOptimizer i) := rfl
        rw [hred] at h
        simp only [Except.error.injEq] at h
        subst h
        exact ⟨0, (PyValue.func f, PyValue.func g), rfl,
          Or.inr ⟨by simp, rfl⟩⟩
      | prim t =>
        have hred : checkPairsAux ((PyValue.func f, PyValue.prim t) :: rest) i =
            Except.error (InitError.optNotOptimizer i) := rfl
        rw [hred] at h
        simp only [Except.error.injEq] at h
        subst h
        exact ⟨0, (PyValue.func f, PyValue.prim t), rfl,
          Or.inr ⟨by simp, rfl⟩⟩
    | optimizer po =>
      have hred : checkPairsAux ((PyValue.optimizer po, o) :: rest) i =
          Except.error (InitError.predNotCallable i) := rfl
      rw [hred] at h
      simp only [Except.error.injEq] at h
      subst h
      exact ⟨0, (PyValue.optimizer po, o), rfl, Or.inl ⟨by simp, rfl⟩⟩
    | prim t =>
      have hred : checkPairsAux ((PyValue.prim t, o) :: rest) i =
          Except.error (InitError.predNotCallable i) := rfl
      rw [hred] at h
      simp only [Except.error.injEq] at h
      subst h
      exact ⟨0, (PyValue.prim t, o), rfl, Or.inl ⟨by simp, rfl⟩⟩

/-- An `InitError` names an offending argument position: the pair (or the
default) it points at really fails the corresponding type check. -/
def namesOffender (args : List (PyValue × PyValue)) (dfltArg : Option PyValue) :
    InitError → Prop
  | InitError.predNotCallable i =>
      ∃ pair, args.get? i = some pair ∧ pair.1.isCallable = false
  | InitError.optNotOptimizer i =>
      ∃ pair, args.get? i = some pair ∧ pair.2.isOptimizer = false
  | InitError.defaultNotOptimizer =>
      ∃ dv, dfltArg = some dv ∧ dv.isOptimizer = false

/-! ### Helper lemmas about `applyGradients` -/

theorem applyGradients_some (c : CaseOptimizer) (d : Dict) (gvs : List GV)
    (h : c.varOptMapping = some d) :
    applyGradients c gvs =
      (c, [],
        Except.ok
          (c.optimizers.zip (dispatchLists c.predOptPairs.length d gvs))) := by
  unfold applyGradients
  rw [h]

/-! ### Claim C9 -/

/-- C9: `CaseOptimizer` construction raises a type error immediately whenever
a supplied predicate is not callable, a supplied optimizer is not an
`Optimizer`, or the default optimizer is neither `None` nor an `Optimizer`
(and only then), the raised error names the position of an argument that
really fails its check, and construction with only callable predicates and
`Optimizer` values succeeds. -/
theorem C9_construction_type_errors (args : List (PyValue × PyValue))
    (dfltArg : Option PyValue) (nm : String) :
    ((∃ c, caseInit args dfltArg nm = Except.ok c) ↔
      ((∀ pair ∈ args, pair.1.isCallable = true ∧ pair.2.isOptimizer = true) ∧
        ∀ dv, dfltArg = some dv → dv.isOptimizer = true)) ∧
    (∀ e, caseInit args dfltArg nm = Except.error e →
      namesOffender args dfltArg e) := by
  constructor
  · unfold caseInit
    cases hc : checkPairsAux args 0 with
    | error e =>
      constructor
      · rintro ⟨c, h⟩
        simp at h
      · rintro ⟨hall, _⟩
        rcases (checkPairsAux_ok_iff args 0).mpr hall with ⟨l, hl⟩
        rw [hc] at hl
        simp at hl
    | ok pairs =>
      cases dfltArg with
      | none =>
        constructor
        · intro _
          refine ⟨(checkPairsAux_ok_iff args 0).mp ⟨pairs, hc⟩, ?_⟩
          intro dv hdv
          simp at hdv
        · intro _
          exact ⟨mkCase pairs none nm, rfl⟩
      | some dv =>
        cases dv with
        | optimizer o =>
          constructor
          · intro _
            refine ⟨(checkPairsAux_ok_iff args 0).mp ⟨pairs, hc⟩, ?_⟩
            intro dv2 hdv
            simp only [Option.some.injEq] at hdv
            subst hdv
            rfl
          · intro _
            exact ⟨mkCase pairs (some o) nm, rfl⟩
        | func f =>
          constructor
          · rintro ⟨c, h⟩
            simp at h
          · rintro ⟨_, hd⟩
            have h2 := hd (PyValue.func f) rfl
            simp [PyValue.isOptimizer] at h2
        | prim t =>
          constructor
          · rintro ⟨c, h⟩
            simp at h
          · rintro ⟨_, hd⟩
            have h2 := hd (PyValue.prim t) rfl
            simp [PyValue.isOptimizer] at h2
  · intro e he
    unfold caseInit at he
    cases hc : checkPairsAux args 0 with
    | error e2 =>
      rw [hc] at he
      simp only [Except.error.injEq] at he
      subst he
      rcases checkPairsAux_error args 0 e2 hc with ⟨j, pair, hget, hcase⟩
      rcases hcase with ⟨heq, hcc⟩ | ⟨heq, hcc⟩
      · subst heq
        simp only [namesOffender, Nat.zero_add]
        exact ⟨pair, hget, hcc⟩
      · subst heq
        simp only [namesOffender, Nat.zero_add]
        exact ⟨pair, hget, hcc⟩
    | ok pairs =>
      rw [hc] at he
      cases dfltArg with
      | none => simp at he
      | some dv =>
        cases dv with
        | optimizer o => simp at he
        | func f =>
          simp only [Except.error.injEq] at he
          subst he
          exact ⟨PyValue.func f, rfl, rfl⟩
        | prim t =>
          simp only [Except.error.injEq] at he
          subst he
          exact ⟨PyValue.prim t, rfl, rfl⟩

/-- Witness for C9: a non-callable first argument (Python `False`) makes
construction raise the type error naming position 0, and that error really
points at a non-callable argument. -/
theorem C9_witness :
    namesOffender [(PyValue.prim "bool", PyValue.optimizer ⟨⟨"Bop", []⟩⟩)] none
      (InitError.predNotCallable 0) :=
  (C9_construction_type_errors
      [(PyValue.prim "bool", PyValue.optimizer ⟨⟨"Bop", []⟩⟩)] none
      "optimizer_case").2
    (InitError.predNotCallable 0) rfl

/-! ### Claim C2 -/

/-- C2: whenever the input batch contains a variable claimed by two or more
of the supplied predicates, construction nevertheless succeeds (the conflict
is never raised at construction time), and the claim-conflict error — naming
a variable with at least two claiming predicates — is raised during the
first `apply_gradients` call. -/
theorem C2_conflict_on_first_apply (pairs : List (Pred × Opt))
    (dflt : Option Opt) (nm : String) (gvs : List GV)
    (hconf : ∃ gv ∈ gvs, 2 ≤ claimCount pairs gv.2) :
    caseInit (pairs.map (fun p => (PyValue.func p.1, PyValue.optimizer p.2)))
        (dflt.map PyValue.optimizer) nm = Except.ok (mkCase pairs dflt nm) ∧
      ∃ g w, (g, w) ∈ gvs ∧ 2 ≤ claimCount pairs w ∧
        (applyGradients (mkCase pairs dflt nm) gvs).2.2 =
          Except.error (CaseError.claimConflict w.name) := by
  refine ⟨caseInit_typed pairs dflt nm, ?_⟩
  rcases computeAux_conflict pairs dflt gvs [] [] hconf with ⟨g, w, hm, h2, herr⟩
  refine ⟨g, w, hm, h2, ?_⟩
  rcases hr : computeAux pairs dflt gvs [] [] with ⟨d, ws, err⟩
  rw [hr] at herr
  simp only at herr
  subst herr
  simp [applyGradients, computeVarOptMapping, mkCase, hr]

/-- Witness for C2: two predicates that always claim produce the conflict
error on the first apply call for a concrete one-variable batch, while
construction succeeds. -/
theorem C2_witness :
    caseInit
        ([((fun _ => true : Pred), (⟨⟨"Bop", []⟩⟩ : Opt)),
          ((fun _ => true : Pred), (⟨⟨"Bop", []⟩⟩ : Opt))].map
          (fun p => (PyValue.func p.1, PyValue.optimizer p.2)))
        (Option.none.map PyValue.optimizer) "optimizer_case" =
      Except.ok
        (mkCase
          [((fun _ => true : Pred), (⟨⟨"Bop", []⟩⟩ : Opt)),
            ((fun _ => true : Pred), (⟨⟨"Bop", []⟩⟩ : Opt))] none
          "optimizer_case") ∧
    ∃ g w, (g, w) ∈ [((0 : Grad), (⟨"a", 1⟩ : Variable))] ∧
      2 ≤ claimCount
          [((fun _ => true : Pred), (⟨⟨"Bop", []⟩⟩ : Opt)),
            ((fun _ => true : Pred), (⟨⟨"Bop", []⟩⟩ : Opt))] w ∧
      (applyGradients
          (mkCase
            [((fun _ => true : Pred), (⟨⟨"Bop", []⟩⟩ : Opt)),
              ((fun _ => true : Pred), (⟨⟨"Bop", []⟩⟩ : Opt))] none
            "optimizer_case")
          [((0 : Grad), (⟨"a", 1⟩ : Variable))]).2.2 =
        Except.error (CaseError.claimConflict w.name) :=
  C2_conflict_on_first_apply
    [((fun _ => true : Pred), (⟨⟨"Bop", []⟩⟩ : Opt)),
      ((fun _ => true : Pred), (⟨⟨"Bop", []⟩⟩ : Opt))] none "optimizer_case"
    [((0 : Grad), (⟨"a", 1⟩ : Variable))]
    ⟨((0 : Grad), (⟨"a", 1⟩ : Variable)), by decide⟩

/-! ### Claim C3 -/

/-- C3: the routing table is built (set to `some` table) on the first
`apply_gradients` call; on an instance whose table is already built, a
further `apply_gradients` call leaves the instance completely unchanged
(same table, no rebuild, no warnings) and a variable absent from the table —
such as a previously-unseen one — is dispatched to no delegate's bucket. -/
theorem C3_table_frozen (pairs : List (Pred × Opt)) (dflt : Option Opt)
    (nm : String) (gvs : List GV) (c : CaseOptimizer) (d : Dict)
    (gvs2 : List GV) (g : Grad) (v : Variable)
    (hc : c.varOptMapping = some d) :
    (applyGradients (mkCase pairs dflt nm) gvs).1.varOptMapping =
        some (computeVarOptMapping pairs dflt gvs).1 ∧
    applyGradients c gvs2 =
      (c, [],
        Except.ok
          (c.optimizers.zip (dispatchLists c.predOptPairs.length d gvs2))) ∧
    ((g, v) ∈ gvs2 → alistLookup d v.name = none →
      ∀ inv ∈ c.optimizers.zip (dispatchLists c.predOptPairs.length d gvs2),
        (g, v) ∉ inv.2) := by
  refine ⟨?_, applyGradients_some c d gvs2 hc, ?_⟩
  · rcases hr : computeAux pairs dflt gvs [] [] with ⟨d2, ws, err⟩
    cases err with
    | none => simp [applyGradients, computeVarOptMapping, mkCase, hr]
    | some e => simp [applyGradients, computeVarOptMapping, mkCase, hr]
  · intro _ hnone inv hinv hmem2
    have hbucket : inv.2 ∈ dispatchLists c.predOptPairs.length d gvs2 := by
      have : (inv.1, inv.2) ∈
          c.optimizers.zip (dispatchLists c.predOptPairs.length d gvs2) := by
        simpa using hinv
      exact (List.of_mem_zip this).2
    have hsome := dispatchLists_mem_isSome c.predOptPairs.length d gvs2
      inv.2 hbucket (g, v) hmem2
    rw [hnone] at hsome
    simp at hsome

/-- Witness for C3: a one-pair optimizer with an already-built empty table
leaves its state unchanged on a further call and dispatches nothing for a
variable that is not in the table. -/
theorem C3_witness :
    (applyGradients
        (mkCase [((fun _ => false : Pred), (⟨⟨"Bop", []⟩⟩ : Opt))] none
          "optimizer_case") []).1.varOptMapping =
      some
        (computeVarOptMapping [((fun _ => false : Pred), (⟨⟨"Bop", []⟩⟩ : Opt))]
          none []).1 ∧
    applyGradients
        ({ mkCase [((fun _ => false : Pred), (⟨⟨"Bop", []⟩⟩ : Opt))] none
            "optimizer_case" with varOptMapping := some [] })
        [((0 : Grad), (⟨"b", 1⟩ : Variable))] =
      ({ mkCase [((fun _ => false : Pred), (⟨⟨"Bop", []⟩⟩ : Opt))] none
          "optimizer_case" with varOptMapping := some [] }, [],
        Except.ok
          (({ mkCase [((fun _ => false : Pred), (⟨⟨"Bop", []⟩⟩ : Opt))] none
              "optimizer_case" with varOptMapping := some [] }).optimizers.zip
            (dispatchLists
              ({ mkCase [((fun _ => false : Pred), (⟨⟨"Bop", []⟩⟩ : Opt))] none
                  "optimizer_case" with
                varOptMapping := some [] }).predOptPairs.length []
              [((0 : Grad), (⟨"b", 1⟩ : Variable))]))) ∧
    (((0 : Grad), (⟨"b", 1⟩ : Variable)) ∈
        [((0 : Grad), (⟨"b", 1⟩ : Variable))] →
      alistLookup ([] : Dict) (⟨"b", 1⟩ : Variable).name = none →
      ∀ inv ∈
        ({ mkCase [((fun _ => false : Pred), (⟨⟨"Bop", []⟩⟩ : Opt))] none
            "optimizer_case" with varOptMapping := some [] }).optimizers.zip
          (dispatchLists
            ({ mkCase [((fun _ => false : Pred), (⟨⟨"Bop", []⟩⟩ : Opt))] none
                "optimizer_case" with
              varOptMapping := some [] }).predOptPairs.length []
            [((0 : Grad), (⟨"b", 1⟩ : Variable))]),
        ((0 : Grad), (⟨"b", 1⟩ : Variable)) ∉ inv.2) :=
  C3_table_frozen [((fun _ => false : Pred), (⟨⟨"Bop", []⟩⟩ : Opt))] none
    "optimizer_case" []
    ({ mkCase [((fun _ => false : Pred), (⟨⟨"Bop", []⟩⟩ : Opt))] none
        "optimizer_case" with varOptMapping := some [] })
    [] [((0 : Grad), (⟨"b", 1⟩ : Variable))] 0 ⟨"b", 1⟩ rfl

/-! ### Claim C6 -/

/-- C6 (code bug): for a `CaseOptimizer` constructed without a default
optimizer, `get_config` does not return a mapping with the `default_config`
key absent — it evaluates `self.default.get_config()` on `None` and raises
an `AttributeError`, as the embedding of `get_config` shows on a concrete
defaultless instance. -/
theorem C6_get_config_crashes_without_default :
    CaseOptimizer.getConfig
        (mkCase [((fun _ => true : Pred), (⟨⟨"Bop", []⟩⟩ : Opt))] none
          "optimizer_case") =
      Except.error ConfigError.noneHasNoGetConfig := rfl

/-! ### Claim C5 -/

/-- C5 (amended): a dense Bop update persists
`m_new = (1 - gamma) * m + gamma * g` into the `"m"` accumulator slot
(leaving every other slot unchanged) and persists
`v_new = sign(-tf_sign(v * m_new - threshold) * v)` into the variable, where
the outer sign returns -1 for negative and +1 for non-negative inputs but
the inner sign is `tf.sign`, the standard three-valued sign with
`tf.sign 0 = 0`. -/
theorem C5_bop_dense_update (s : BopState) (g : Grad) (v : Variable) :
    alistLookup (bopApplyDense s g v).1.slots v.name =
        some ((1 - s.gamma) * (alistLookup s.slots v.name).getD 0 + s.gamma * g) ∧
    (bopApplyDense s g v).2.value =
        lqSign
          (-(tfSign
              (v.value *
                  ((1 - s.gamma) * (alistLookup s.slots v.name).getD 0 +
                    s.gamma * g) -
                s.threshold)) *
            v.value) ∧
    (bopApplyDense s g v).2.name = v.name ∧
    (∀ k, k ≠ v.name →
      alistLookup (bopApplyDense s g v).1.slots k = alistLookup s.slots k) := by
  refine ⟨?_, rfl, rfl, ?_⟩
  · simp only [bopApplyDense]
    exact alistLookup_insert_self _ _ _
  · intro k hk
    simp only [bopApplyDense]
    exact alistLookup_insert_ne _ _ _ _ hk

/-- Witness for C5: on a concrete state, the update leaves an unrelated
accumulator slot unchanged. -/
theorem C5_witness :
    alistLookup (bopApplyDense ⟨1, 1, []⟩ 1 ⟨"w", 1⟩).1.slots "other" =
      alistLookup (BopState.slots ⟨1, 1, []⟩) "other" :=
  (C5_bop_dense_update ⟨1, 1, []⟩ 1 ⟨"w", 1⟩).2.2.2 "other" (by decide)

/-- Counterexample for C5 as stated: with `gamma = 1`, `threshold = 1`,
`m = 0`, `g = 1` and `v = 1` the code persists `m_new = 1` and then, since
`v * m_new - threshold = 0` and `tf.sign 0 = 0`, writes `+1` into the
variable — while the claim's formula, reading both signs as two-valued
(`sign 0 = +1`), prescribes `-1`. -/
theorem C5_counterexample :
    alistLookup (bopApplyDense ⟨1, 1, []⟩ 1 ⟨"w", 1⟩).1.slots "w" = some 1 ∧
    (bopApplyDense ⟨1, 1, []⟩ 1 ⟨"w", 1⟩).2.value = 1 ∧
    lqSign (-(lqSign ((1 : Rat) * 1 - 1)) * 1) = -1 ∧
    (bopApplyDense ⟨1, 1, []⟩ 1 ⟨"w", 1⟩).2.value ≠
      lqSign (-(lqSign ((1 : Rat) * 1 - 1)) * 1) := by
  refine ⟨?_, ?_, ?_, ?_⟩
  · norm_num [bopApplyDense, alistLookup, alistInsert, tfSign, lqSign]
  · norm_num [bopApplyDense, alistLookup, alistInsert, tfSign, lqSign]
  · norm_num [lqSign]
  · norm_num [bopApplyDense, alistLookup, alistInsert, tfSign, lqSign]

/-! ### Claim C8 -/

/-- C8 (amended): on every `apply_gradients` call that completes without
raising the claim-conflict error, each delegate in `self.optimizers`
(including the default when present) has its apply-step invoked exactly
once: the invocation list pairs the delegates one-to-one and in order with
the buckets, including empty buckets. -/
theorem C8_all_delegates_invoked (pairs : List (Pred × Opt))
    (dflt : Option Opt) (nm : String) (m : Option Dict) (gvs : List GV)
    (invs : List (Opt × List GV))
    (h : (applyGradients ({ mkCase pairs dflt nm with varOptMapping := m })
        gvs).2.2 = Except.ok invs) :
    invs.map Prod.fst = (mkCase pairs dflt nm).optimizers ∧
    invs.length = (mkCase pairs dflt nm).optimizers.length := by
  have hlen : (mkCase pairs dflt nm).optimizers.length ≤ pairs.length + 1 := by
    cases dflt with
    | none => simp [mkCase]
    | some o => simp [mkCase]
  have hinvs : ∃ d : Dict, invs =
      (mkCase pairs dflt nm).optimizers.zip (dispatchLists pairs.length d gvs) := by
    cases m with
    | some d =>
      rw [applyGradients_some _ d gvs rfl] at h
      simp only [Except.ok.injEq] at h
      exact ⟨d, by rw [← h]; rfl⟩
    | none =>
      rcases hr : computeAux pairs dflt gvs [] [] with ⟨d, ws, err⟩
      cases err with
      | some e =>
        simp [applyGradients, computeVarOptMapping, mkCase, hr] at h
      | none =>
        simp only [applyGradients, computeVarOptMapping, mkCase, hr] at h
        simp only [Except.ok.injEq] at h
        exact ⟨d, by rw [← h]; rfl⟩
  rcases hinvs with ⟨d, hd⟩
  subst hd
  constructor
  · exact List.map_fst_zip _ _ (by rw [dispatchLists_length]; exact hlen)
  · rw [List.length_zip, dispatchLists_length]
    omega

/-- Witness for C8 (amended): a one-pair optimizer with a default and a
built empty table invokes both delegates — each exactly once, the explicit
one and the default with empty buckets. -/
theorem C8_witness :
    (([((⟨⟨"Bop", []⟩⟩ : Opt), ([] : List GV)),
        ((⟨⟨"Adam", []⟩⟩ : Opt), ([] : List GV))]).map Prod.fst =
      (mkCase [((fun _ => false : Pred), (⟨⟨"Bop", []⟩⟩ : Opt))]
        (some ⟨⟨"Adam", []⟩⟩) "optimizer_case").optimizers) ∧
    ([((⟨⟨"Bop", []⟩⟩ : Opt), ([] : List GV)),
        ((⟨⟨"Adam", []⟩⟩ : Opt), ([] : List GV))]).length =
      (mkCase [((fun _ => false : Pred), (⟨⟨"Bop", []⟩⟩ : Opt))]
        (some ⟨⟨"Adam", []⟩⟩) "optimizer_case").optimizers.length :=
  C8_all_delegates_invoked [((fun _ => false : Pred), (⟨⟨"Bop", []⟩⟩ : Opt))]
    (some ⟨⟨"Adam", []⟩⟩) "optimizer_case" (some []) [] _ rfl

/-- Counterexample for C8 as stated: on a first `apply_gradients` call that
hits a routing conflict, the call raises and no delegate is invoked at all —
there is no invocation list, delegates included, so they are not each
invoked exactly once on *every* call. -/
theorem C8_counterexample :
    (applyGradients
        (mkCase
          [((fun _ => true : Pred), (⟨⟨"Bop", []⟩⟩ : Opt)),
            ((fun _ => true : Pred), (⟨⟨"Bop", []⟩⟩ : Opt))] none
          "optimizer_case")
        [((0 : Grad), (⟨"a", 1⟩ : Variable))]).2.2 =
      Except.error (CaseError.claimConflict "a") ∧
    ∀ invs : List (Opt × List GV),
      (applyGradients
          (mkCase
            [((fun _ => true : Pred), (⟨⟨"Bop", []⟩⟩ : Opt)),
              ((fun _ => true : Pred), (⟨⟨"Bop", []⟩⟩ : Opt))] none
            "optimizer_case")
          [((0 : Grad), (⟨"a", 1⟩ : Variable))]).2.2 ≠ Except.ok invs := by
  refine ⟨rfl, ?_⟩
  intro invs h
  rw [(rfl :
    (applyGradients
        (mkCase
          [((fun _ => true : Pred), (⟨⟨"Bop", []⟩⟩ : Opt)),
            ((fun _ => true : Pred), (⟨⟨"Bop", []⟩⟩ : Opt))] none
          "optimizer_case")
        [((0 : Grad), (⟨"a", 1⟩ : Variable))]).2.2 =
      Except.error (CaseError.claimConflict "a"))] at h
  exact Except.noConfusion h

/-! ### Claim C4 -/

/-- C4 (amended): for every input batch on which the predicates are pairwise
disjoint, provided every variable is claimed by exactly one predicate or a
default optimizer is present, the routing table built on the first
`apply_gradients` call assigns each variable exactly one delegate index and
the union of the per-delegate buckets dispatched in that apply-step equals
the original input set. -/
theorem C4_disjoint_partition (pairs : List (Pred × Opt)) (dflt : Option Opt)
    (nm : String) (gvs : List GV)
    (hdisj : ∀ gv ∈ gvs, claimCount pairs gv.2 ≤ 1)
    (hcov : ∀ gv ∈ gvs, claimCount pairs gv.2 = 1 ∨ dflt.isSome) :
    ∃ d ws,
      applyGradients (mkCase pairs dflt nm) gvs =
        ({ mkCase pairs dflt nm with varOptMapping := some d }, ws,
          Except.ok
            ((mkCase pairs dflt nm).optimizers.zip
              (dispatchLists pairs.length d gvs))) ∧
      (∀ gv ∈ gvs, ∃ i, alistLookup d gv.2.name = some i ∧
        ∀ j, alistLookup d gv.2.name = some j → j = i) ∧
      (∀ gv : GV,
        gv ∈ (((mkCase pairs dflt nm).optimizers.zip
            (dispatchLists pairs.length d gvs)).map Prod.snd).flatten ↔
          gv ∈ gvs) := by
  rcases hr : computeAux pairs dflt gvs [] [] with ⟨d, ws, err⟩
  have herr : err = none := by
    have h2 := computeAux_no_conflict pairs dflt gvs [] [] hdisj
    rw [hr] at h2
    exact h2
  subst herr
  have hlookup : ∀ gv ∈ gvs, (alistLookup d gv.2.name).isSome := by
    intro gv hg
    have h2 := computeAux_covers pairs dflt gvs [] [] hdisj hcov gv hg
    rw [hr] at h2
    exact h2
  have hbound : ∀ k j, alistLookup d k = some j → j < pairs.length + 1 := by
    intro k j hkj
    have h2 := computeAux_lookup_bound pairs dflt gvs [] []
      (by intro k2 j2 h3; simp [alistLookup] at h3) k j
    rw [hr] at h2
    have := h2 hkj
    omega
  refine ⟨d, ws, ?_, ?_, ?_⟩
  · simp [applyGradients, computeVarOptMapping, mkCase, hr]
  · intro gv hg
    rcases Option.isSome_iff_exists.mp (hlookup gv hg) with ⟨i, hi⟩
    refine ⟨i, hi, ?_⟩
    intro j hj
    rw [hi] at hj
    exact (Option.some.inj hj).symm
  · intro gv
    rw [mem_flatten_zip_snd]
    constructor
    · rintro ⟨i, _, hi2, hmem⟩
      rw [dispatchLists_length] at hi2
      rw [dispatchLists_getD pairs.length d gvs hbound i hi2] at hmem
      exact List.mem_of_mem_filter hmem
    · intro hmem
      rcases Option.isSome_iff_exists.mp (hlookup gv hmem) with ⟨i, hi⟩
      have hiopt : i < (mkCase pairs dflt nm).optimizers.length := by
        cases hdo : dflt with
        | some o =>
          have hol : (mkCase pairs (some o) nm).optimizers.length =
              pairs.length + 1 := by
            simp [mkCase]
          rw [hol]
          exact hbound _ i hi
        | none =>
          have hall1 : ∀ gv ∈ gvs, claimCount pairs gv.2 = 1 := by
            intro gv2 hg2
            rcases hcov gv2 hg2 with h1 | h1
            · exact h1
            · rw [hdo] at h1; simp at h1
          have hstrict := computeAux_lookup_bound_strict pairs gvs [] []
            (by intro k2 j2 h3; simp [alistLookup] at h3) gv.2.name i
          rw [hdo] at hr
          rw [hr] at hstrict
          have hol : (mkCase pairs none nm).optimizers.length = pairs.length := by
            simp [mkCase]
          rw [hol]
          exact hstrict hi
      refine ⟨i, hiopt, ?_, ?_⟩
      · rw [dispatchLists_length]
        exact hbound _ i hi
      · rw [dispatchLists_getD pairs.length d gvs hbound i (hbound _ i hi)]
        refine List.mem_filter.mpr ⟨hmem, ?_⟩
        rw [hi]
        simp

/-- Witness for C4 (amended): one never-claiming pair plus a default routes
the single variable to the default index 1 and the dispatched buckets
together contain exactly the input. -/
theorem C4_witness :
    ∃ d ws,
      applyGradients
          (mkCase [((fun _ => false : Pred), (⟨⟨"Bop", []⟩⟩ : Opt))]
            (some ⟨⟨"Adam", []⟩⟩) "optimizer_case")
          [((0 : Grad), (⟨"a", 1⟩ : Variable))] =
        ({ mkCase [((fun _ => false : Pred), (⟨⟨"Bop", []⟩⟩ : Opt))]
            (some ⟨⟨"Adam", []⟩⟩) "optimizer_case" with
          varOptMapping := some d }, ws,
          Except.ok
            ((mkCase [((fun _ => false : Pred), (⟨⟨"Bop", []⟩⟩ : Opt))]
                (some ⟨⟨"Adam", []⟩⟩) "optimizer_case").optimizers.zip
              (dispatchLists 1 d [((0 : Grad), (⟨"a", 1⟩ : Variable))]))) ∧
      (∀ gv ∈ [((0 : Grad), (⟨"a", 1⟩ : Variable))],
        ∃ i, alistLookup d gv.2.name = some i ∧
          ∀ j, alistLookup d gv.2.name = some j → j = i) ∧
      (∀ gv : GV,
        gv ∈ (((mkCase [((fun _ => false : Pred), (⟨⟨"Bop", []⟩⟩ : Opt))]
              (some ⟨⟨"Adam", []⟩⟩) "optimizer_case").optimizers.zip
            (dispatchLists 1 d [((0 : Grad), (⟨"a", 1⟩ : Variable))])).map
            Prod.snd).flatten ↔
          gv ∈ [((0 : Grad), (⟨"a", 1⟩ : Variable))]) :=
  C4_disjoint_partition [((fun _ => false : Pred), (⟨⟨"Bop", []⟩⟩ : Opt))]
    (some ⟨⟨"Adam", []⟩⟩) "optimizer_case"
    [((0 : Grad), (⟨"a", 1⟩ : Variable))]
    (by intro gv _; simp [claimCount])
    (by intro gv _; right; rfl)

/-- Counterexample for C4 as stated: with one never-claiming predicate, no
default optimizer and a one-variable batch, the predicates are pairwise
disjoint, yet the first apply-step's routing table assigns the variable no
delegate index at all and the union of the dispatched buckets is empty
rather than equal to the input set. -/
theorem C4_counterexample :
    (∀ gv ∈ [((0 : Grad), (⟨"a", 1⟩ : Variable))],
      claimCount [((fun _ => false : Pred), (⟨⟨"Bop", []⟩⟩ : Opt))] gv.2 ≤ 1) ∧
    (applyGradients
        (mkCase [((fun _ => false : Pred), (⟨⟨"Bop", []⟩⟩ : Opt))] none
          "optimizer_case")
        [((0 : Grad), (⟨"a", 1⟩ : Variable))]).1.varOptMapping =
      some [] ∧
    alistLookup ([] : Dict) "a" = none ∧
    (applyGradients
        (mkCase [((fun _ => false : Pred), (⟨⟨"Bop", []⟩⟩ : Opt))] none
          "optimizer_case")
        [((0 : Grad), (⟨"a", 1⟩ : Variable))]).2.2 =
      Except.ok [((⟨⟨"Bop", []⟩⟩ : Opt), ([] : List GV))] ∧
    ((0 : Grad), (⟨"a", 1⟩ : Variable)) ∈
      [((0 : Grad), (⟨"a", 1⟩ : Variable))] ∧
    ((0 : Grad), (⟨"a", 1⟩ : Variable)) ∉
      (([((⟨⟨"Bop", []⟩⟩ : Opt), ([] : List GV))].map Prod.snd).flatten) := by
  refine ⟨?_, rfl, rfl, rfl, ?_, ?_⟩
  · intro gv _
    simp [claimCount]
  · simp
  · simp

/-! ### Claim C7 -/

theorem bucketFindAux_eq_none (v : Variable) :
    ∀ buckets i, (∀ b ∈ buckets, ∀ g : Grad, (g, v) ∉ b) →
      bucketFindAux buckets v i = none := by
  intro buckets
  induction buckets with
  | nil => intro i _; rfl
  | cons b rest ih =>
    intro i hnot
    have hfind : b.find? (fun gv => gv.2 == v) = none := by
      rw [List.find?_eq_none]
      intro x hx hbeq
      have hx2 : x.2 = v := by simpa using hbeq
      have : (x.1, v) ∈ b := by
        rw [← hx2]
        simpa using hx
      exact hnot b (List.mem_cons_self b rest) x.1 this
    simp only [bucketFindAux, hfind]
    exact ih (i + 1) (fun b2 h2 => hnot b2 (List.mem_cons_of_mem b h2))

theorem zip_mem_not_dispatched (c : CaseOptimizer) (d : Dict) (gvs2 : List GV)
    (v : Variable) (hnone : alistLookup d v.name = none) :
    ∀ inv ∈ c.optimizers.zip (dispatchLists c.predOptPairs.length d gvs2),
      ∀ g2 : Grad, (g2, v) ∉ inv.2 := by
  intro inv hinv g2 hmem2
  have hbucket : inv.2 ∈ dispatchLists c.predOptPairs.length d gvs2 := by
    have h2 : (inv.1, inv.2) ∈
        c.optimizers.zip (dispatchLists c.predOptPairs.length d gvs2) := by
      simpa using hinv
    exact (List.of_mem_zip h2).2
  have hsome := dispatchLists_mem_isSome c.predOptPairs.length d gvs2
    inv.2 hbucket (g2, v) hmem2
  rw [hnone] at hsome
  simp at hsome

/-- C7 (amended): for a `CaseOptimizer` with no default optimizer, a batch in
which no variable is claimed by more than one predicate (so the table build
completes), and a variable `v` claimed by no predicate — no variable with
`v`'s name being claimed, names being unique per the data model — the first
`apply_gradients` call emits the unclaimed-variable warning naming `v`,
omits `v` from the routing table, dispatches `v` to no delegate on this and
on every subsequent call, and therefore leaves `v`'s value unchanged under
the delegate update contract. -/
theorem C7_unclaimed_variable_frozen (pairs : List (Pred × Opt)) (nm : String)
    (gvs : List GV) (g : Grad) (v : Variable)
    (hmem : (g, v) ∈ gvs)
    (hname : ∀ gv ∈ gvs, gv.2.name = v.name → claimCount pairs gv.2 = 0)
    (hnoconf : ∀ gv ∈ gvs, claimCount pairs gv.2 ≤ 1) :
    ∃ d ws,
      applyGradients (mkCase pairs none nm) gvs =
        ({ mkCase pairs none nm with varOptMapping := some d }, ws,
          Except.ok
            ((mkCase pairs none nm).optimizers.zip
              (dispatchLists pairs.length d gvs))) ∧
      unclaimedWarning v.name ∈ ws ∧
      alistLookup d v.name = none ∧
      (∀ inv ∈ (mkCase pairs none nm).optimizers.zip
          (dispatchLists pairs.length d gvs),
        ∀ g2 : Grad, (g2, v) ∉ inv.2) ∧
      (∀ rule, updatedValue rule
          (((mkCase pairs none nm).optimizers.zip
            (dispatchLists pairs.length d gvs)).map Prod.snd) v = v.value) ∧
      (∀ gvs2, ∀ inv ∈ (mkCase pairs none nm).optimizers.zip
          (dispatchLists pairs.length d gvs2),
        ∀ g2 : Grad, (g2, v) ∉ inv.2) := by
  rcases hr : computeAux pairs none gvs [] [] with ⟨d, ws, err⟩
  have herr : err = none := by
    have h2 := computeAux_no_conflict pairs none gvs [] [] hnoconf
    rw [hr] at h2
    exact h2
  subst herr
  have hwarn : unclaimedWarning v.name ∈ ws := by
    have h2 := computeAux_warning_emitted pairs gvs [] [] g v hmem
      (hname (g, v) hmem rfl) hnoconf
    rw [hr] at h2
    exact h2
  have hnone : alistLookup d v.name = none := by
    have h2 := computeAux_lookup_none pairs gvs [] [] v.name hname rfl
    rw [hr] at h2
    exact h2
  have hskip : ∀ gvs2 : List GV,
      ∀ inv ∈ (mkCase pairs none nm).optimizers.zip
        (dispatchLists pairs.length d gvs2),
      ∀ g2 : Grad, (g2, v) ∉ inv.2 := by
    intro gvs2
    exact zip_mem_not_dispatched (mkCase pairs none nm) d gvs2 v hnone
  refine ⟨d, ws, ?_, hwarn, hnone, hskip gvs, ?_, hskip⟩
  · simp [applyGradients, computeVarOptMapping, mkCase, hr]
  · intro rule
    unfold updatedValue
    rw [bucketFindAux_eq_none v _ 0 ?_]
    intro b hb g2 hgb
    rcases List.mem_map.mp hb with ⟨inv, hinv, hsnd⟩
    rw [← hsnd] at hgb
    exact hskip gvs inv hinv g2 hgb

/-- Witness for C7 (amended): a single never-matching predicate, no default,
one variable — the first call warns about it, leaves it out of the table and
out of every bucket, and keeps its value. -/
theorem C7_witness :
    ∃ d ws,
      applyGradients
          (mkCase [((fun _ => false : Pred), (⟨⟨"Bop", []⟩⟩ : Opt))] none
            "optimizer_case") [((0 : Grad), (⟨"a", 1⟩ : Variable))] =
        ({ mkCase [((fun _ => false : Pred), (⟨⟨"Bop", []⟩⟩ : Opt))] none
            "optimizer_case" with varOptMapping := some d }, ws,
          Except.ok
            ((mkCase [((fun _ => false : Pred), (⟨⟨"Bop", []⟩⟩ : Opt))] none
                "optimizer_case").optimizers.zip
              (dispatchLists 1 d [((0 : Grad), (⟨"a", 1⟩ : Variable))]))) ∧
      unclaimedWarning (⟨"a", 1⟩ : Variable).name ∈ ws ∧
      alistLookup d (⟨"a", 1⟩ : Variable).name = none ∧
      (∀ inv ∈ (mkCase [((fun _ => false : Pred), (⟨⟨"Bop", []⟩⟩ : Opt))] none
            "optimizer_case").optimizers.zip
          (dispatchLists 1 d [((0 : Grad), (⟨"a", 1⟩ : Variable))]),
        ∀ g2 : Grad, (g2, (⟨"a", 1⟩ : Variable)) ∉ inv.2) ∧
      (∀ rule, updatedValue rule
          (((mkCase [((fun _ => false : Pred), (⟨⟨"Bop", []⟩⟩ : Opt))] none
              "optimizer_case").optimizers.zip
            (dispatchLists 1 d [((0 : Grad), (⟨"a", 1⟩ : Variable))])).map
            Prod.snd) ⟨"a", 1⟩ = (⟨"a", 1⟩ : Variable).value) ∧
      (∀ gvs2, ∀ inv ∈ (mkCase [((fun _ => false : Pred), (⟨⟨"Bop", []⟩⟩ : Opt))]
            none "optimizer_case").optimizers.zip (dispatchLists 1 d gvs2),
        ∀ g2 : Grad, (g2, (⟨"a", 1⟩ : Variable)) ∉ inv.2) :=
  C7_unclaimed_variable_frozen [((fun _ => false : Pred), (⟨⟨"Bop", []⟩⟩ : Opt))]
    "optimizer_case" [((0 : Grad), (⟨"a", 1⟩ : Variable))] 0 ⟨"a", 1⟩
    (List.mem_singleton.mpr rfl)
    (by intro gv _ _; simp [claimCount])
    (by intro gv _; simp [claimCount])

/-- Counterexample for C7 as stated: when an earlier variable in the same
batch is claimed by two predicates, the first `apply_gradients` call raises
the conflict before ever processing the unclaimed variable `a`, so no
warning naming `a` is emitted (the warning list is empty and the call
errors), contradicting the claim that the warning is emitted for every
unclaimed variable on the first call. -/
theorem C7_counterexample :
    (applyGradients
        (mkCase
          [((fun u => u.name == "b" : Pred), (⟨⟨"Bop", []⟩⟩ : Opt)),
            ((fun u => u.name == "b" : Pred), (⟨⟨"Bop", []⟩⟩ : Opt))] none
          "optimizer_case")
        [((0 : Grad), (⟨"b", 1⟩ : Variable)),
          ((0 : Grad), (⟨"a", 1⟩ : Variable))]).2.1 = [] ∧
    (applyGradients
        (mkCase
          [((fun u => u.name == "b" : Pred), (⟨⟨"Bop", []⟩⟩ : Opt)),
            ((fun u => u.name == "b" : Pred), (⟨⟨"Bop", []⟩⟩ : Opt))] none
          "optimizer_case")
        [((0 : Grad), (⟨"b", 1⟩ : Variable)),
          ((0 : Grad), (⟨"a", 1⟩ : Variable))]).2.2 =
      Except.error (CaseError.claimConflict "b") ∧
    claimCount
      [((fun u => u.name == "b" : Pred), (⟨⟨"Bop", []⟩⟩ : Opt)),
        ((fun u => u.name == "b" : Pred), (⟨⟨"Bop", []⟩⟩ : Opt))]
      ⟨"a", 1⟩ = 0 ∧
    unclaimedWarning "a" ∉ ([] : List String) := by
  refine ⟨rfl, rfl, rfl, ?_⟩
  simp

/-! ### Claim C10 -/

theorem computeAux_error_dict (pairs : List (Pred × Opt)) (dflt : Option Opt)
    (gc : Grad) (w : Variable) (rest : List GV)
    (hw : 2 ≤ claimCount pairs w) :
    ∀ pre d ws,
      (∀ gv ∈ pre, claimCount pairs gv.2 ≤ 1) →
      (∀ gv ∈ pre, gv.2.name ≠ w.name) →
      alistLookup d w.name = none →
      (computeAux pairs dflt (pre ++ (gc, w) :: rest) d ws).2.2 =
          some (CaseError.claimConflict w.name) ∧
      alistLookup (computeAux pairs dflt (pre ++ (gc, w) :: rest) d ws).1
          w.name = lastClaimIndex pairs w ∧
      (∀ gv ∈ pre,
        (claimCount pairs gv.2 = 1 ∨
          (claimCount pairs gv.2 = 0 ∧ dflt.isSome)) →
        (alistLookup (computeAux pairs dflt (pre ++ (gc, w) :: rest) d ws).1
          gv.2.name).isSome) := by
  intro pre
  induction pre with
  | nil =>
    intro d ws _ _ hdw
    have hcount : (claimVarAux pairs w 0 d 0).2 = claimCount pairs w := by
      rw [claimVarAux_count, Nat.zero_add]
    simp only [List.nil_append, computeAux]
    rw [if_pos (by omega)]
    refine ⟨rfl, ?_, ?_⟩
    · rw [claimVarAux_lookup_self]
      rcases Option.isSome_iff_exists.mp
        (lastClaimAux_isSome pairs w (by omega) 0) with ⟨j, hj⟩
      unfold lastClaimIndex
      rw [hj]
      rfl
    · intro gv hgv
      simp at hgv
  | cons gv0 pre' ih =>
    intro d ws hpre hnames hdw
    have hcount : (claimVarAux pairs gv0.2 0 d 0).2 = claimCount pairs gv0.2 := by
      rw [claimVarAux_count, Nat.zero_add]
    have h0le : claimCount pairs gv0.2 ≤ 1 :=
      hpre gv0 (List.mem_cons_self gv0 pre')
    have hname0 : gv0.2.name ≠ w.name :=
      hnames gv0 (List.mem_cons_self gv0 pre')
    have hwne : w.name ≠ gv0.2.name := fun hh => hname0 hh.symm
    have hpre' : ∀ gv ∈ pre', claimCount pairs gv.2 ≤ 1 :=
      fun gv h2 => hpre gv (List.mem_cons_of_mem gv0 h2)
    have hnames' : ∀ gv ∈ pre', gv.2.name ≠ w.name :=
      fun gv h2 => hnames gv (List.mem_cons_of_mem gv0 h2)
    have hdw1 : alistLookup (claimVarAux pairs gv0.2 0 d 0).1 w.name = none := by
      rw [claimVarAux_lookup_ne pairs gv0.2 w.name hwne]
      exact hdw
    simp only [List.cons_append, computeAux]
    rw [if_neg (by omega)]
    by_cases h0 : (claimVarAux pairs gv0.2 0 d 0).2 = 0
    · rw [if_pos h0]
      cases dflt with
      | some o =>
        have hdw2 : alistLookup
            (alistInsert (claimVarAux pairs gv0.2 0 d 0).1 gv0.2.name
              pairs.length) w.name = none := by
          rw [alistLookup_insert_ne _ _ _ _ hwne]
          exact hdw1
        rcases ih _ ws hpre' hnames' hdw2 with ⟨he, hl, hp⟩
        refine ⟨he, hl, ?_⟩
        intro gv hgv _
        rcases List.mem_cons.mp hgv with heq | hm
        · subst heq
          refine computeAux_lookup_isSome pairs (some o) _ _ _ _ ?_
          rw [alistLookup_insert_self]
          rfl
        · exact hp gv hm (by
            rcases hpre gv (List.mem_cons_of_mem gv0 hm) with _
            rcases Nat.lt_or_ge (claimCount pairs gv.2) 1 with h1 | h1
            · exact Or.inr ⟨by omega, rfl⟩
            · exact Or.inl (by omega))
      | none =>
        rcases ih _ (ws ++ [unclaimedWarning gv0.2.name]) hpre' hnames' hdw1
          with ⟨he, hl, hp⟩
        refine ⟨he, hl, ?_⟩
        intro gv hgv hcase
        rcases List.mem_cons.mp hgv with heq | hm
        · subst heq
          rcases hcase with h1 | ⟨_, h2⟩
          · omega
          · simp at h2
        · rcases hcase with h1 | ⟨_, h2⟩
          · exact hp gv hm (Or.inl h1)
          · simp at h2
    · rw [if_neg h0]
      rcases ih _ ws hpre' hnames' hdw1 with ⟨he, hl, hp⟩
      refine ⟨he, hl, ?_⟩
      intro gv hgv hcase
      rcases List.mem_cons.mp hgv with heq | hm
      · subst heq
        refine computeAux_lookup_isSome pairs dflt _ _ _ _ ?_
        rw [claimVarAux_lookup_self]
        rcases Option.isSome_iff_exists.mp
          (lastClaimAux_isSome pairs gv.2 (by omega) 0) with ⟨j, hj⟩
        rw [hj]
        rfl
      · exact hp gv hm hcase

/-- C10 (amended): when the claim-conflict error is raised during the first
`apply_gradients` call, the routing table is not rolled back:
`var_opt_mapping` is left assigned to the partially built table, which
contains an entry for every variable processed before the conflict that was
claimed by exactly one predicate or (when a default exists) claimed by none,
and maps the conflicting variable to the index of the last predicate that
claimed it; a subsequent `apply_gradients` call on the same instance reuses
this partial table unchanged and completes without raising the conflict
error again. -/
theorem C10_partial_table_persists (pairs : List (Pred × Opt))
    (dflt : Option Opt) (nm : String) (pre rest : List GV) (gc : Grad)
    (w : Variable) (gvs2 : List GV)
    (hpre : ∀ gv ∈ pre, claimCount pairs gv.2 ≤ 1)
    (hw : 2 ≤ claimCount pairs w)
    (hnames : ∀ gv ∈ pre, gv.2.name ≠ w.name) :
    ∃ d ws,
      applyGradients (mkCase pairs dflt nm) (pre ++ (gc, w) :: rest) =
        ({ mkCase pairs dflt nm with varOptMapping := some d }, ws,
          Except.error (CaseError.claimConflict w.name)) ∧
      alistLookup d w.name = lastClaimIndex pairs w ∧
      (lastClaimIndex pairs w).isSome ∧
      (∀ gv ∈ pre,
        (claimCount pairs gv.2 = 1 ∨
          (claimCount pairs gv.2 = 0 ∧ dflt.isSome)) →
        (alistLookup d gv.2.name).isSome) ∧
      applyGradients ({ mkCase pairs dflt nm with varOptMapping := some d })
          gvs2 =
        ({ mkCase pairs dflt nm with varOptMapping := some d }, [],
          Except.ok
            (({ mkCase pairs dflt nm with
                varOptMapping := some d }).optimizers.zip
              (dispatchLists pairs.length d gvs2))) := by
  rcases computeAux_error_dict pairs dflt gc w rest hw pre [] [] hpre hnames rfl
    with ⟨he, hl, hp⟩
  rcases hr : computeAux pairs dflt (pre ++ (gc, w) :: rest) [] []
    with ⟨d, ws, err⟩
  rw [hr] at he hl hp
  simp only at he hl hp
  subst he
  refine ⟨d, ws, ?_, hl, ?_, hp, ?_⟩
  · simp [applyGradients, computeVarOptMapping, mkCase, hr]
  · rw [← hl]
    have h2 := computeAux_lookup_isSome pairs dflt (pre ++ (gc, w) :: rest)
    rcases Option.isSome_iff_exists.mp
      (lastClaimAux_isSome pairs w (by omega) 0) with ⟨j, hj⟩
    rw [hl]
    unfold lastClaimIndex
    rw [hj]
    rfl
  · exact applyGradients_some _ d gvs2 rfl

/-- Witness for C10 (amended): two predicates both claiming variable `b`
conflict on the first call; the table keeps `b` at the last claiming index
and the second call completes without error. -/
theorem C10_witness :
    ∃ d ws,
      applyGradients
          (mkCase
            [((fun u => u.name == "b" : Pred), (⟨⟨"Bop", []⟩⟩ : Opt)),
              ((fun u => u.name == "b" : Pred), (⟨⟨"Bop", []⟩⟩ : Opt))] none
            "optimizer_case")
          ([] ++ ((0 : Grad), (⟨"b", 1⟩ : Variable)) :: []) =
        ({ mkCase
            [((fun u => u.name == "b" : Pred), (⟨⟨"Bop", []⟩⟩ : Opt)),
              ((fun u => u.name == "b" : Pred), (⟨⟨"Bop", []⟩⟩ : Opt))] none
            "optimizer_case" with varOptMapping := some d }, ws,
          Except.error (CaseError.claimConflict (⟨"b", 1⟩ : Variable).name)) ∧
      alistLookup d (⟨"b", 1⟩ : Variable).name =
        lastClaimIndex
          [((fun u => u.name == "b" : Pred), (⟨⟨"Bop", []⟩⟩ : Opt)),
            ((fun u => u.name == "b" : Pred), (⟨⟨"Bop", []⟩⟩ : Opt))]
          ⟨"b", 1⟩ ∧
      (lastClaimIndex
          [((fun u => u.name == "b" : Pred), (⟨⟨"Bop", []⟩⟩ : Opt)),
            ((fun u => u.name == "b" : Pred), (⟨⟨"Bop", []⟩⟩ : Opt))]
          ⟨"b", 1⟩).isSome ∧
      (∀ gv ∈ ([] : List GV),
        (claimCount
            [((fun u => u.name == "b" : Pred), (⟨⟨"Bop", []⟩⟩ : Opt)),
              ((fun u => u.name == "b" : Pred), (⟨⟨"Bop", []⟩⟩ : Opt))]
            gv.2 = 1 ∨
          (claimCount
              [((fun u => u.name == "b" : Pred), (⟨⟨"Bop", []⟩⟩ : Opt)),
                ((fun u => u.name == "b" : Pred), (⟨⟨"Bop", []⟩⟩ : Opt))]
              gv.2 = 0 ∧ (none : Option Opt).isSome)) →
        (alistLookup d gv.2.name).isSome) ∧
      applyGradients
          ({ mkCase
              [((fun u => u.name == "b" : Pred), (⟨⟨"Bop", []⟩⟩ : Opt)),
                ((fun u => u.name == "b" : Pred), (⟨⟨"Bop", []⟩⟩ : Opt))] none
              "optimizer_case" with varOptMapping := some d }) [] =
        ({ mkCase
            [((fun u => u.name == "b" : Pred), (⟨⟨"Bop", []⟩⟩ : Opt)),
              ((fun u => u.name == "b" : Pred), (⟨⟨"Bop", []⟩⟩ : Opt))] none
            "optimizer_case" with varOptMapping := some d }, [],
          Except.ok
            (({ mkCase
                [((fun u => u.name == "b" : Pred), (⟨⟨"Bop", []⟩⟩ : Opt)),
                  ((fun u => u.name == "b" : Pred), (⟨⟨"Bop", []⟩⟩ : Opt))]
                none "optimizer_case" with varOptMapping := some d }).optimizers.zip
              (dispatchLists 2 d []))) :=
  C10_partial_table_persists
    [((fun u => u.name == "b" : Pred), (⟨⟨"Bop", []⟩⟩ : Opt)),
      ((fun u => u.name == "b" : Pred), (⟨⟨"Bop", []⟩⟩ : Opt))] none
    "optimizer_case" [] [] 0 ⟨"b", 1⟩ []
    (by intro gv hgv; simp at hgv)
    (by rfl)
    (by intro gv hgv; simp at hgv)

/-- Counterexample for C10 as stated: with two predicates that claim only
`b`, no default, and the batch `[a, b]`, the variable `a` is processed
before the conflict on `b`, yet the persisted partial table is
`[("b", 1)]` — it has no entry for `a`, contradicting "entries for every
variable processed before the conflict". -/
theorem C10_counterexample :
    (applyGradients
        (mkCase
          [((fun u => u.name == "b" : Pred), (⟨⟨"Bop", []⟩⟩ : Opt)),
            ((fun u => u.name == "b" : Pred), (⟨⟨"Bop", []⟩⟩ : Opt))] none
          "optimizer_case")
        [((0 : Grad), (⟨"a", 1⟩ : Variable)),
          ((0 : Grad), (⟨"b", 1⟩ : Variable))]).2.2 =
      Except.error (CaseError.claimConflict "b") ∧
    (applyGradients
        (mkCase
          [((fun u => u.name == "b" : Pred), (⟨⟨"Bop", []⟩⟩ : Opt)),
            ((fun u => u.name == "b" : Pred), (⟨⟨"Bop", []⟩⟩ : Opt))] none
          "optimizer_case")
        [((0 : Grad), (⟨"a", 1⟩ : Variable)),
          ((0 : Grad), (⟨"b", 1⟩ : Variable))]).1.varOptMapping =
      some [("b", 1)] ∧
    alistLookup [("b", (1 : Nat))] "a" = none := ⟨rfl, rfl, rfl⟩

/-! ### Claim C1 -/

/-- C1 (amended): for every `CaseOptimizer` that has a default optimizer,
carries the constructor's default name `"optimizer_case"`, and whose routing
table has been computed, `from_config(get_config(x))` yields an instance
whose `get_config()` output is identical to `get_config(x)` and whose
`var_opt_mapping` equals `x`'s; the restored instance carries placeholder
predicates that always return `False`, and since its table is installed
directly the lazy-build path is bypassed — `apply_gradients` never mutates
the restored instance, so no predicate is ever invoked. -/
theorem C1_roundtrip (pairs : List (Pred × Opt)) (dflt : Opt) (m : Dict) :
    ∃ cfg : CaseConfig,
      CaseOptimizer.getConfig
          ({ mkCase pairs (some dflt) "optimizer_case" with
            varOptMapping := some m }) = Except.ok cfg ∧
      CaseOptimizer.getConfig (fromConfig cfg) = Except.ok cfg ∧
      (fromConfig cfg).varOptMapping =
        ({ mkCase pairs (some dflt) "optimizer_case" with
          varOptMapping := some m }).varOptMapping ∧
      (∀ p ∈ (fromConfig cfg).predOptPairs, ∀ v, p.1 v = false) ∧
      (∀ gvs, (applyGradients (fromConfig cfg) gvs).1 = fromConfig cfg) := by
  refine ⟨⟨"optimizer_case",
    pairs.map (fun p => (⟨p.2.getConfig.name, p.2.getConfig⟩ : TaggedConfig)),
    ⟨dflt.getConfig.name, dflt.getConfig⟩, some m⟩, ?_, ?_, ?_, ?_, ?_⟩
  · rfl
  · simp only [CaseOptimizer.getConfig, fromConfig, mkCase, kerasDeserialize,
      Opt.getConfig, List.map_map]
    rfl
  · rfl
  · intro p hp v
    have hp2 : p ∈ (mkCase
        ((pairs.map (fun p => (⟨p.2.getConfig.name, p.2.getConfig⟩ :
            TaggedConfig))).map
          (fun t => ((fun _ => false : Pred), kerasDeserialize t)))
        (some (kerasDeserialize ⟨dflt.getConfig.name, dflt.getConfig⟩))
        "optimizer_case").predOptPairs := hp
    simp only [mkCase] at hp2
    rcases List.mem_map.mp hp2 with ⟨t, _, ht⟩
    rw [← ht]
  · intro gvs
    have hsome : (fromConfig ⟨"optimizer_case",
        pairs.map (fun p => (⟨p.2.getConfig.name, p.2.getConfig⟩ : TaggedConfig)),
        ⟨dflt.getConfig.name, dflt.getConfig⟩, some m⟩).varOptMapping =
        some m := rfl
    rw [applyGradients_some _ m gvs hsome]

/-- Witness for C1 (amended): the concrete round trip for a one-pair
optimizer with a default, the default name, and a computed one-entry table. -/
theorem C1_witness :
    ∃ cfg : CaseConfig,
      CaseOptimizer.getConfig
          ({ mkCase [((fun _ => true : Pred), (⟨⟨"Bop", []⟩⟩ : Opt))]
              (some ⟨⟨"Adam", []⟩⟩) "optimizer_case" with
            varOptMapping := some [("a", 0)] }) = Except.ok cfg ∧
      CaseOptimizer.getConfig (fromConfig cfg) = Except.ok cfg ∧
      (fromConfig cfg).varOptMapping =
        ({ mkCase [((fun _ => true : Pred), (⟨⟨"Bop", []⟩⟩ : Opt))]
            (some ⟨⟨"Adam", []⟩⟩) "optimizer_case" with
          varOptMapping := some [("a", 0)] }).varOptMapping ∧
      (∀ p ∈ (fromConfig cfg).predOptPairs, ∀ v, p.1 v = false) ∧
      (∀ gvs, (applyGradients (fromConfig cfg) gvs).1 = fromConfig cfg) :=
  C1_roundtrip [((fun _ => true : Pred), (⟨⟨"Bop", []⟩⟩ : Opt))]
    ⟨⟨"Adam", []⟩⟩ [("a", 0)]

/-- Counterexample for C1 as stated: a `CaseOptimizer` constructed with the
non-default name `"my_case"` and a computed table round-trips to an instance
whose `get_config()` output carries the constructor's default name
`"optimizer_case"` instead — `from_config` does not restore the name, so the
two configuration mappings are not identical. -/
theorem C1_counterexample :
    CaseOptimizer.getConfig
        ({ mkCase [((fun _ => true : Pred), (⟨⟨"Bop", []⟩⟩ : Opt))]
            (some ⟨⟨"Adam", []⟩⟩) "my_case" with
          varOptMapping := some [("a", 0)] }) =
      Except.ok
        ⟨"my_case", [⟨"Bop", ⟨"Bop", []⟩⟩], ⟨"Adam", ⟨"Adam", []⟩⟩,
          some [("a", 0)]⟩ ∧
    CaseOptimizer.getConfig
        (fromConfig
          ⟨"my_case", [⟨"Bop", ⟨"Bop", []⟩⟩], ⟨"Adam", ⟨"Adam", []⟩⟩,
            some [("a", 0)]⟩) =
      Except.ok
        ⟨"optimizer_case", [⟨"Bop", ⟨"Bop", []⟩⟩], ⟨"Adam", ⟨"Adam", []⟩⟩,
          some [("a", 0)]⟩ ∧
    Except.ok
        (⟨"optimizer_case", [⟨"Bop", ⟨"Bop", []⟩⟩], ⟨"Adam", ⟨"Adam", []⟩⟩,
          some [("a", 0)]⟩ : CaseConfig) ≠
      (Except.ok
        (⟨"my_case", [⟨"Bop", ⟨"Bop", []⟩⟩], ⟨"Adam", ⟨"Adam", []⟩⟩,
          some [("a", 0)]⟩ : CaseConfig) :
        Except ConfigError CaseConfig) := by
  refine ⟨rfl, rfl, ?_⟩
  intro h
  simp only [Except.ok.injEq, CaseConfig.mk.injEq] at h
  rcases h with ⟨hname, _⟩
  exact absurd hname (by decide)

end Larq
